import Mathlib

/-!
# Gridspace whiteboard: geometry, viewport, pointer handlers, history and replication

A shallow embedding of the editing core of `src/App.js`.

Numbers are JavaScript doubles in the source; here they are rationals (`ℚ`), so
every statement is over exact arithmetic.  `Math.sqrt`, which has no rational
counterpart, is taken as a parameter where the source calls it.  React state
variables (`useState`) become the fields of one `State` record, and each handler
becomes a function from the state it reads to the state it leaves behind; the
`set...` calls of one handler are applied in the order the source issues them.
`JSON.parse` and `String.prototype.trim` are parameters as well.  Handlers
attached in the JSX read the state of the latest render; the `onSnapshot`
callback reads the `elements` and `history` of the render that subscribed,
which the state keeps in two fields of their own.
-/

namespace Whiteboard

/-! ## Data model -/

/-- A point `{x, y}`. -/
structure Point where
  x : ℚ
  y : ℚ
deriving DecidableEq, Repr

/-- The box `{x, y, width, height}` returned by `getElementBounds`. -/
structure Bounds where
  x : ℚ
  y : ℚ
  width : ℚ
  height : ℚ
deriving DecidableEq, Repr

/-- A drawable element, one constructor per value of the `type` field written by
`createElement`.  `lineWidth` is optional because `getElementBounds` reads it as
`element.lineWidth || 0`; a `text` element carries `fontSize` and no `lineWidth`. -/
inductive Element where
  | path (id : String) (path : List Point) (color : String) (lineWidth : Option ℚ)
  | rectangle (id : String) (x y width height : ℚ) (color : String) (lineWidth : Option ℚ)
  | circle (id : String) (x y radius : ℚ) (color : String) (lineWidth : Option ℚ)
  | line (id : String) (x y x2 y2 : ℚ) (color : String) (lineWidth : Option ℚ)
  | text (id : String) (x y width height : ℚ) (text : String) (color : String) (fontSize : ℚ)
deriving DecidableEq, Repr

/-- The `id` field of an element. -/
def Element.id : Element → String
  | .path id _ _ _ => id
  | .rectangle id _ _ _ _ _ _ => id
  | .circle id _ _ _ _ _ => id
  | .line id _ _ _ _ _ _ => id
  | .text id _ _ _ _ _ _ _ => id

/-- The `lineWidth` field of an element, `none` when the object has no such field. -/
def Element.lineWidth : Element → Option ℚ
  | .path _ _ _ lw => lw
  | .rectangle _ _ _ _ _ _ lw => lw
  | .circle _ _ _ _ _ lw => lw
  | .line _ _ _ _ _ _ lw => lw
  | .text _ _ _ _ _ _ _ _ => none

/-- The document: the `elements` array, in z-order. -/
abbrev Document := List Element

/-! ## Geometry kernel (`App.js` lines 41-104) -/

/-- `const padding = (element.lineWidth || 0) / 2 + 5`. -/
def padding (lineWidth : Option ℚ) : ℚ :=
  lineWidth.getD 0 / 2 + 5

/-- `Math.min(...xs)`.  On an empty argument list JavaScript answers `Infinity`,
which is no rational: that case is `none`. -/
def mathMin : List ℚ → Option ℚ
  | [] => none
  | a :: as => some (as.foldl min a)

/-- `Math.max(...xs)`; `none` on an empty list, where JavaScript answers `-Infinity`. -/
def mathMax : List ℚ → Option ℚ
  | [] => none
  | a :: as => some (as.foldl max a)

/-- `getElementBounds(element)` for a defined element.  The guard
`if (!element) return null` is rendered at the call sites, which bind an
optional element (`Option.bind`).  The `default` branch of the `switch` has no
counterpart because `Element` is closed.  A path without points has non-finite
bounds in the source (`Infinity`, `-Infinity`), on which the hit test
(`isPointInsideBounds`) and the marquee test (`doBoundsIntersect`) answer
`false`; here it is `none`. -/
def getElementBounds (element : Element) : Option Bounds :=
  let padding := padding element.lineWidth
  match element with
  | .path _ path _ _ =>
    let xs := path.map (fun p => p.x)
    let ys := path.map (fun p => p.y)
    match mathMin xs, mathMin ys, mathMax xs, mathMax ys with
    | some minX, some minY, some maxX, some maxY =>
      some { x := minX - padding
             y := minY - padding
             width := (maxX - minX) + padding * 2
             height := (maxY - minY) + padding * 2 }
    | _, _, _, _ => none
  | .rectangle _ x y width height _ _ | .text _ x y width height _ _ _ =>
    let bounds : Bounds :=
      { x := min x (x + width), y := min y (y + height), width := |width|, height := |height| }
    some { x := bounds.x - 5
           y := bounds.y - 5
           width := bounds.width + 10
           height := bounds.height + 10 }
  | .circle _ x y radius _ _ =>
    some { x := x - radius - padding
           y := y - radius - padding
           width := (radius + padding) * 2
           height := (radius + padding) * 2 }
  | .line _ x y x2 y2 _ _ =>
    let bounds : Bounds :=
      { x := min x x2, y := min y y2, width := |x - x2|, height := |y - y2| }
    some { x := bounds.x - padding
           y := bounds.y - padding
           width := bounds.width + padding * 2
           height := bounds.height + padding * 2 }

/-- `isPointInsideBounds(point, bounds)`; `none` is the source's `null`. -/
def isPointInsideBounds (point : Point) (bounds : Option Bounds) : Bool :=
  match bounds with
  | none => false
  | some bounds =>
    decide (point.x ≥ bounds.x) && decide (point.x ≤ bounds.x + bounds.width) &&
    decide (point.y ≥ bounds.y) && decide (point.y ≤ bounds.y + bounds.height)

/-- `doBoundsIntersect(b1, b2)`. -/
def doBoundsIntersect (b1 b2 : Bounds) : Bool :=
  !(decide (b2.x > b1.x + b1.width) ||
    decide (b2.x + b2.width < b1.x) ||
    decide (b2.y > b1.y + b1.height) ||
    decide (b2.y + b2.height < b1.y))

/-! ## Component state (`WhiteboardScreen`, lines 190-214) -/

/-- Values of the `tool` state variable offered by the toolbar. -/
inductive Tool where
  | select | pen | line | shape | text | strokeEraser
deriving DecidableEq, Repr

/-- Values of the `shape` state variable. -/
inductive Shape where
  | rectangle | circle
deriving DecidableEq, Repr

/-- Values of the `action` state variable; `none` is the idle state. -/
inductive Action where
  | none | drawing | moving | writing | panning | selecting
deriving DecidableEq, Repr

/-- Values of `userPermission`. -/
inductive Permission where
  | draw | watch | pending | none
deriving DecidableEq, Repr

/-- The `startPoint` object: a point, with `originalElements` when a move gesture set it. -/
structure StartPoint where
  x : ℚ
  y : ℚ
  originalElements : Option (List Element) := none
deriving DecidableEq, Repr

/-- The `textInput` object. -/
structure TextInput where
  visible : Bool := false
  x : ℚ := 0
  y : ℚ := 0
  width : ℚ := 0
  height : ℚ := 0
  value : String := ""
deriving DecidableEq, Repr

/-- The `viewTransform` object. -/
structure ViewTransform where
  scale : ℚ := 1
  offsetX : ℚ := 0
  offsetY : ℚ := 0
deriving DecidableEq, Repr

/-- The state variables of `WhiteboardScreen`, with their `useState` initial values.
`userPermission` and `isHost` are the two values the component derives from
`sessionData`; `published` is the document last handed to `updateDoc` as
`drawingData` (nothing yet when `none`).  `subscribedElements` and
`subscribedHistory` are the `elements` and `history` of the render in which the
effect of lines 353-369 last ran: the `onSnapshot` callback closes over those
two, and the effect runs again only when `initialSession.id` or `onLeave`
changes. -/
structure State where
  elements : Document := []
  history : List Document := [[]]
  historyIndex : Nat := 0
  action : Action := Action.none
  tool : Tool := Tool.pen
  shape : Shape := Shape.rectangle
  color : String := "#00aaff"
  lineWidth : ℚ := 5
  selectedElements : List String := []
  startPoint : Option StartPoint := none
  textInput : TextInput := {}
  isSpacePressed : Bool := false
  viewTransform : ViewTransform := {}
  selectionRect : Option Bounds := none
  userPermission : Permission := Permission.draw
  isHost : Bool := false
  published : Option Document := none
  subscribedElements : Document := []
  subscribedHistory : List Document := [[]]
deriving DecidableEq, Repr

/-- The state of a freshly mounted `WhiteboardScreen`. -/
def initialState : State := {}

/-! ## History manager (lines 216-247) -/

/-- `updateFirestoreWithHistory(newHistory, newIndex)`: hands `newHistory[newIndex]`
to the session record. -/
def updateFirestoreWithHistory (s : State) (newHistory : List Document) (newIndex : Nat) : State :=
  { s with published := newHistory[newIndex]? }

/-- `updateHistory(newElements)`. -/
def updateHistory (s : State) (newElements : Document) : State :=
  let newHistory := s.history.take (s.historyIndex + 1) ++ [newElements]
  updateFirestoreWithHistory
    { s with history := newHistory, historyIndex := newHistory.length - 1 }
    newHistory (newHistory.length - 1)

/-- `handleUndo()`.  `history[newIndex]` is `undefined` in the source when the
index is past the end; that cannot happen while `historyIndex < history.length`
and is rendered here as the empty document. -/
def handleUndo (s : State) : State :=
  if s.historyIndex > 0 then
    let newIndex := s.historyIndex - 1
    updateFirestoreWithHistory
      { s with historyIndex := newIndex, elements := (s.history[newIndex]?).getD [] }
      s.history newIndex
  else s

/-- `handleRedo()`.  The guard `historyIndex < history.length - 1` puts `newIndex`
inside the array, so the fallback of the lookup is never taken.  The
subtraction is on naturals: on an empty history it gives 0 where the source
has -1, and the guard fails either way. -/
def handleRedo (s : State) : State :=
  if s.historyIndex < s.history.length - 1 then
    let newIndex := s.historyIndex + 1
    updateFirestoreWithHistory
      { s with historyIndex := newIndex, elements := (s.history[newIndex]?).getD [] }
      s.history newIndex
  else s

/-- `handleClearCanvas()`. -/
def handleClearCanvas (s : State) : State :=
  if !s.isHost then s
  else updateHistory { s with elements := [] } []

/-! ## Replication channel (lines 353-369) -/

/-- What one `onSnapshot` delivery of an existing session record carries to the
core: the two values derived from the record, and
`serverElements = JSON.parse(data.drawingData || '[]')`. -/
structure SessionSnapshot where
  userPermission : Permission
  isHost : Bool
  serverElements : Document
deriving DecidableEq, Repr

/-- The `onSnapshot` callback, `doc.exists()` branch, from the parsed document
on.  The names `elements` and `history` in its body are those of the render
that subscribed (dependency list `[initialSession.id, onLeave]`, line 369),
kept here in `subscribedElements` and `subscribedHistory`; the three `set...`
calls write the current state.  `JSON.stringify(a) !== JSON.stringify(b)` is
rendered as `a ≠ b`. -/
def onSnapshot (s : State) (data : SessionSnapshot) : State :=
  let s := { s with userPermission := data.userPermission, isHost := data.isHost }
  let serverElements := data.serverElements
  if serverElements ≠ s.subscribedElements then
    let newHistory := serverElements :: s.subscribedHistory.drop 1
    { s with elements := serverElements, history := newHistory, historyIndex := 0 }
  else s

/-- A render of `App`: a change of its `user`, `session` or `theme` state (lines
108-111) runs its body again, `handleLeaveSession` (line 159) is a new function,
`WhiteboardScreen` receives it as `onLeave` (line 180), and the effect of lines
353-369 unsubscribes and subscribes again with a callback that closes over the
`elements` and `history` of that render. -/
def resubscribe (s : State) : State :=
  { s with subscribedElements := s.elements, subscribedHistory := s.history }

/-! ## Element creation and hit-testing (lines 448-471, 546-556) -/

/-- `createElement(id, x, y, x2, y2)` under the current `tool`, `shape`, `color`
and `lineWidth`; `sqrt` stands for `Math.sqrt`, `none` for `null`;
`FONT_SIZE = 24`. -/
def createElement (sqrt : ℚ → ℚ) (s : State) (id : String) (x y x2 y2 : ℚ) : Option Element :=
  match s.tool with
  | .pen => some (.path id [{ x := x, y := y }] s.color (some s.lineWidth))
  | .line => some (.line id x y x2 y2 s.color (some s.lineWidth))
  | .shape =>
    match s.shape with
    | .rectangle => some (.rectangle id x y (x2 - x) (y2 - y) s.color (some s.lineWidth))
    | .circle =>
      some (.circle id x y (sqrt ((x2 - x) ^ 2 + (y2 - y) ^ 2)) s.color (some s.lineWidth))
  | .text => some (.text id x y (x2 - x) (y2 - y) "" s.color 24)
  | _ => none

/-- The update `handleMouseMove` applies to the element being drawn when the
pointer is at world `(x, y)` (lines 546-556). -/
def updateDrawnElement (sqrt : ℚ → ℚ) (currentElement : Element) (x y : ℚ) : Element :=
  match currentElement with
  | .path id path color lw => .path id (path ++ [{ x := x, y := y }]) color lw
  | .line id ex ey _ _ color lw => .line id ex ey x y color lw
  | .rectangle id ex ey _ _ color lw => .rectangle id ex ey (x - ex) (y - ey) color lw
  | .text id ex ey _ _ text color fs => .text id ex ey (x - ex) (y - ey) text color fs
  | .circle id ex ey _ color lw =>
    .circle id ex ey (sqrt ((x - ex) ^ 2 + (y - ey) ^ 2)) color lw

/-- The loop of `getElementAtPosition` with `k` indices left to visit: it looks
at `elements[k - 1]`, then at the lower indices. -/
def getElementAtPositionFrom (x y : ℚ) (elements : Document) : Nat → Option Element
  | 0 => none
  | i + 1 =>
    if isPointInsideBounds { x := x, y := y } ((elements[i]?).bind getElementBounds) then
      elements[i]?
    else getElementAtPositionFrom x y elements i

/-- `getElementAtPosition(x, y, elements)`: `for (i = elements.length - 1; i >= 0; i--)`. -/
def getElementAtPosition (x y : ℚ) (elements : Document) : Option Element :=
  getElementAtPositionFrom x y elements elements.length

/-! ## Viewport (lines 405-446) -/

/-- What a mouse event on the canvas carries: `e.clientX`, `e.clientY`, and the
`left`, `top` of `canvas.getBoundingClientRect()` at that moment. -/
structure MouseInput where
  clientX : ℚ
  clientY : ℚ
  rectLeft : ℚ
  rectTop : ℚ
deriving DecidableEq, Repr

/-- What a wheel event carries: the mouse fields and `deltaY`. -/
structure WheelInput where
  clientX : ℚ
  clientY : ℚ
  deltaY : ℚ
  rectLeft : ℚ
  rectTop : ℚ
deriving DecidableEq, Repr

/-- `getTransformedCoords(e)` for a mouse event (no `touches`) on the mounted canvas. -/
def getTransformedCoords (s : State) (e : MouseInput) : Point :=
  { x := (e.clientX - e.rectLeft - s.viewTransform.offsetX) / s.viewTransform.scale
    y := (e.clientY - e.rectTop - s.viewTransform.offsetY) / s.viewTransform.scale }

/-- `handleWheel(e)`; `zoomFactor = 1.1` is `11 / 10`, the lower clamp `0.1` is `1 / 10`. -/
def handleWheel (s : State) (e : WheelInput) : State :=
  let mouseX := e.clientX - e.rectLeft
  let mouseY := e.clientY - e.rectTop
  let zoomFactor : ℚ := 11 / 10
  let newScale :=
    if e.deltaY < 0 then s.viewTransform.scale * zoomFactor
    else s.viewTransform.scale / zoomFactor
  let scale := min (max newScale (1 / 10)) 20
  let worldX := (mouseX - s.viewTransform.offsetX) / s.viewTransform.scale
  let worldY := (mouseY - s.viewTransform.offsetY) / s.viewTransform.scale
  let newOffsetX := mouseX - worldX * scale
  let newOffsetY := mouseY - worldY * scale
  { s with viewTransform := { scale := scale, offsetX := newOffsetX, offsetY := newOffsetY } }

/-- `handleKeyDown(e)`, `handleKeyUp(e)`: `isSpace` says whether `e.key === ' '`. -/
def handleKeyDown (s : State) (isSpace : Bool) : State :=
  if isSpace then { s with isSpacePressed := true } else s

/-- See `handleKeyDown`. -/
def handleKeyUp (s : State) (isSpace : Bool) : State :=
  if isSpace then { s with isSpacePressed := false } else s

/-! ## Pointer handlers (lines 473-644) -/

/-- `handleMouseDown(e)`; `id` is the value of `Date.now() + user.uid` at the event. -/
def handleMouseDown (sqrt : ℚ → ℚ) (id : String) (s : State) (e : MouseInput) : State :=
  if s.userPermission ≠ Permission.draw || s.textInput.visible then s
  else
    let x := (getTransformedCoords s e).x
    let y := (getTransformedCoords s e).y
    let screenCoords : StartPoint := { x := e.clientX, y := e.clientY }
    if s.isSpacePressed then
      { s with action := Action.panning, startPoint := some screenCoords }
    else if s.tool = Tool.select then
      match getElementAtPosition x y s.elements with
      | some element =>
        { s with
          selectedElements := [element.id]
          action := Action.moving
          startPoint := some
            { x := x, y := y
              originalElements := some (s.elements.filter (fun el => el.id == element.id)) } }
      | none =>
        { s with
          action := Action.selecting
          startPoint := some { x := x, y := y }
          selectedElements := [] }
    else if s.tool = Tool.strokeEraser then
      match getElementAtPosition x y s.elements with
      | some elementToDelete =>
        let updatedElements := s.elements.filter (fun el => el.id != elementToDelete.id)
        updateHistory { s with elements := updatedElements } updatedElements
      | none => s
    else
      match createElement sqrt s id x y x y with
      | some newElement =>
        { s with
          action := Action.drawing
          elements := s.elements ++ [newElement]
          selectedElements := [newElement.id] }
      | none => { s with action := Action.drawing }

/-- The element `handleMouseMove` puts in place of a selected one while moving:
`{ ...originalElement, id }` with every point of a path, both endpoints of a
line, or the anchor of any other variant shifted by `(dx, dy)`. -/
def moveElement (originalElement : Element) (id : String) (dx dy : ℚ) : Element :=
  match originalElement with
  | .path _ path color lw =>
    .path id (path.map (fun p => { x := p.x + dx, y := p.y + dy })) color lw
  | .line _ x y x2 y2 color lw => .line id (x + dx) (y + dy) (x2 + dx) (y2 + dy) color lw
  | .rectangle _ x y width height color lw => .rectangle id (x + dx) (y + dy) width height color lw
  | .circle _ x y radius color lw => .circle id (x + dx) (y + dy) radius color lw
  | .text _ x y width height text color fs => .text id (x + dx) (y + dy) width height text color fs

/-- The `elements.map(...)` of the moving branch (lines 562-580).  An element of
the selection without a counterpart in `originalElements` makes the source
read a field of `undefined`, which throws before any state is set: `none`. -/
def moveSelected (selectedElements : List String) (originalElements : List Element)
    (dx dy : ℚ) : List Element → Option (List Element)
  | [] => some []
  | el :: rest =>
    let moved : Option Element :=
      if selectedElements.contains el.id then
        (originalElements.find? (fun oel => oel.id == el.id)).map
          (fun originalElement => moveElement originalElement el.id dx dy)
      else some el
    match moved, moveSelected selectedElements originalElements dx dy rest with
    | some m, some ms => some (m :: ms)
    | _, _ => none

/-- `handleMouseMove(e)`.  Where the source would read a field of a `null`
`startPoint` or of a missing `originalElements` (a thrown `TypeError`, before
any state is set) the state is returned as it was.  The drawn element is
updated in a copy of the array; the source updates the object in place, which
no history entry shares in an ordered gesture (press, moves, release): the
element enters the history only at the release. -/
def handleMouseMove (sqrt : ℚ → ℚ) (s : State) (e : MouseInput) : State :=
  if s.userPermission ≠ Permission.draw || s.action = Action.none then s
  else
    let x := (getTransformedCoords s e).x
    let y := (getTransformedCoords s e).y
    let screenCoords : StartPoint := { x := e.clientX, y := e.clientY }
    if s.action = Action.panning then
      match s.startPoint with
      | none => s
      | some startPoint =>
        let dx := screenCoords.x - startPoint.x
        let dy := screenCoords.y - startPoint.y
        { s with
          viewTransform :=
            { s.viewTransform with
              offsetX := s.viewTransform.offsetX + dx
              offsetY := s.viewTransform.offsetY + dy }
          startPoint := some screenCoords }
    else if s.action = Action.selecting then
      match s.startPoint with
      | none => s
      | some startPoint =>
        let rect : Bounds :=
          { x := (min x startPoint.x * s.viewTransform.scale) + s.viewTransform.offsetX
            y := (min y startPoint.y * s.viewTransform.scale) + s.viewTransform.offsetY
            width := |x - startPoint.x| * s.viewTransform.scale
            height := |y - startPoint.y| * s.viewTransform.scale }
        { s with selectionRect := some rect }
    else if s.action = Action.drawing && s.selectedElements.length = 1 then
      match s.selectedElements.head? with
      | none => s
      | some selected =>
        match s.elements.findIdx? (fun el => el.id == selected) with
        | none => s
        | some index =>
          match s.elements[index]? with
          | none => s
          | some currentElement =>
            { s with elements := s.elements.set index (updateDrawnElement sqrt currentElement x y) }
    else if s.action = Action.moving && decide (s.selectedElements.length > 0) then
      match s.startPoint with
      | none => s
      | some startPoint =>
        let dx := x - startPoint.x
        let dy := y - startPoint.y
        match startPoint.originalElements with
        | none => s
        | some originalElements =>
          match moveSelected s.selectedElements originalElements dx dy s.elements with
          | none => s
          | some updatedElements => { s with elements := updatedElements }
    else s

/-- `handleMouseUp()`.  The calls `setAction('writing')` and, at the end,
`setAction('none')` are applied in the order the source issues them.  When the
found element has no bounds the source throws on `bounds.x` right after
`setAction('writing')`, which is what remains. -/
def handleMouseUp (s : State) : State :=
  if s.action = Action.selecting && s.selectionRect.isSome then
    match s.selectionRect with
    | none => s
    | some selectionRect =>
      let worldRect : Bounds :=
        { x := (selectionRect.x - s.viewTransform.offsetX) / s.viewTransform.scale
          y := (selectionRect.y - s.viewTransform.offsetY) / s.viewTransform.scale
          width := selectionRect.width / s.viewTransform.scale
          height := selectionRect.height / s.viewTransform.scale }
      let selectedIds := (s.elements.filter (fun element =>
        match getElementBounds element with
        | none => false
        | some bounds => doBoundsIntersect bounds worldRect)).map (fun el => el.id)
      let s1 := { s with selectedElements := selectedIds, selectionRect := none }
      { s1 with action := Action.none, startPoint := none }
  else if s.action = Action.drawing && s.tool = Tool.text then
    match s.elements.find? (fun el => some el.id == s.selectedElements.head?) with
    | none => s
    | some textElement =>
      let s1 := { s with action := Action.writing }
      match getElementBounds textElement with
      | none => s1
      | some bounds =>
        let s2 :=
          { s1 with
            textInput :=
              { visible := true, x := bounds.x, y := bounds.y
                width := bounds.width, height := bounds.height, value := "" } }
        { s2 with action := Action.none, startPoint := none }
  else
    let s1 :=
      if s.action = Action.drawing || s.action = Action.moving then updateHistory s s.elements
      else s
    { s1 with action := Action.none, startPoint := none }

/-- The object `{ ...el, text }` of `handleTextBlur`.  On a variant other than
`text` the source adds a `text` property that nothing draws; the closed
`Element` has no place for it and the element is kept as it is. -/
def setElementText (el : Element) (value : String) : Element :=
  match el with
  | .text id x y width height _ color fs => .text id x y width height value color fs
  | other => other

/-- `onChange` of the text area: `setTextInput(prev => ({ ...prev, value }))`. -/
def handleTextChange (s : State) (value : String) : State :=
  { s with textInput := { s.textInput with value := value } }

/-- `handleTextBlur()`; `trim` stands for `String.prototype.trim`. -/
def handleTextBlur (trim : String → String) (s : State) : State :=
  match s.selectedElements with
  | [textElementId] =>
    let updatedElements := s.elements.map (fun el =>
      if el.id = textElementId then setElementText el s.textInput.value else el)
    let s1 :=
      if trim s.textInput.value = "" then
        let finalElements := updatedElements.filter (fun el => el.id != textElementId)
        updateHistory { s with elements := finalElements } finalElements
      else
        updateHistory { s with elements := updatedElements } updatedElements
    { s1 with
      textInput := { visible := false, x := 0, y := 0, width := 0, height := 0, value := "" }
      action := Action.none
      selectedElements := [] }
  | _ => s

/-! ## The marquee rectangles (lines 528-533 and 587-592) -/

/-- The screen-space rectangle `rect` that `handleMouseMove` stores while
selecting, for the pointer at world `(x, y)`. -/
def selectionRectOf (v : ViewTransform) (x y : ℚ) (startPoint : StartPoint) : Bounds :=
  { x := (min x startPoint.x * v.scale) + v.offsetX
    y := (min y startPoint.y * v.scale) + v.offsetY
    width := |x - startPoint.x| * v.scale
    height := |y - startPoint.y| * v.scale }

/-- The `worldRect` that `handleMouseUp` computes from the stored `selectionRect`. -/
def worldRectOf (v : ViewTransform) (selectionRect : Bounds) : Bounds :=
  { x := (selectionRect.x - v.offsetX) / v.scale
    y := (selectionRect.y - v.offsetY) / v.scale
    width := selectionRect.width / v.scale
    height := selectionRect.height / v.scale }

/-! ## The parse step of the replication channel (line 359) -/

/-- The fields of the session record the callback uses: the two derived values
and the raw `drawingData` (`none` when the field is absent). -/
structure SessionRecord where
  userPermission : Permission
  isHost : Bool
  drawingData : Option String
deriving DecidableEq, Repr

/-- How a callback ends: it returns, or it throws; either way with the state the
calls it made before leave behind. -/
inductive Outcome where
  | returned (s : State)
  | threw (s : State)
deriving DecidableEq, Repr

/-- The `onSnapshot` callback on an existing session record, parse included.
`jsonParse` stands for `JSON.parse`, `none` being a thrown `SyntaxError`;
`data.drawingData || '[]'` replaces an absent or empty string by `"[]"`.  The
source has no `try` around the call, and `setSessionData(data)` precedes it. -/
def onSnapshotRecord (jsonParse : String → Option Document) (s : State) (data : SessionRecord) :
    Outcome :=
  let text :=
    match data.drawingData with
    | none => "[]"
    | some str => if str = "" then "[]" else str
  match jsonParse text with
  | none =>
    Outcome.threw { s with userPermission := data.userPermission, isHost := data.isHost }
  | some serverElements =>
    Outcome.returned (onSnapshot s
      { userPermission := data.userPermission, isHost := data.isHost
        serverElements := serverElements })

/-! ## Notions used to state the properties (not part of the source) -/

/-- Geometric extent named by property P1: the points of a path, the four
corners of a rectangle or text box, the two endpoints of a line, the points
within `radius` of the centre of a circle. -/
def inExtent : Element → Point → Prop
  | .path _ path _ _, q => q ∈ path
  | .rectangle _ x y width height _ _, q =>
    (q.x = x ∨ q.x = x + width) ∧ (q.y = y ∨ q.y = y + height)
  | .text _ x y width height _ _ _, q =>
    (q.x = x ∨ q.x = x + width) ∧ (q.y = y ∨ q.y = y + height)
  | .circle _ x y radius _ _, q => (q.x - x) ^ 2 + (q.y - y) ^ 2 ≤ radius ^ 2
  | .line _ x y x2 y2 _ _, q => (q.x = x ∧ q.y = y) ∨ (q.x = x2 ∧ q.y = y2)

/-- Padding the specification gives each variant: 5 for a rectangle or text,
`lineWidth / 2 + 5` for a path, circle or line. -/
def variantPadding : Element → ℚ
  | .rectangle _ _ _ _ _ _ _ => 5
  | .text _ _ _ _ _ _ _ _ => 5
  | e => e.lineWidth.getD 0 / 2 + 5

/-- The extent displaced by at most the padding along each axis. -/
def inPaddedExtent (e : Element) (q : Point) : Prop :=
  ∃ q0, inExtent e q0 ∧ |q.x - q0.x| ≤ variantPadding e ∧ |q.y - q0.y| ≤ variantPadding e

/-- Valid field values in the sense of the data model: a path has at least one
point, a radius is not negative, a line width (0 when absent) is not negative. -/
def validElement : Element → Prop
  | .path _ path _ lw => path ≠ [] ∧ 0 ≤ lw.getD 0
  | .rectangle _ _ _ _ _ _ lw => 0 ≤ lw.getD 0
  | .circle _ _ _ radius _ lw => 0 ≤ radius ∧ 0 ≤ lw.getD 0
  | .line _ _ _ _ _ _ lw => 0 ≤ lw.getD 0
  | .text _ _ _ _ _ _ _ _ => True

/-- Rectangle `r` contains rectangle `b`. -/
def containsBounds (r b : Bounds) : Prop :=
  r.x ≤ b.x ∧ r.y ≤ b.y ∧ b.x + b.width ≤ r.x + r.width ∧ b.y + b.height ≤ r.y + r.height

/-- The operations that touch the history: a commit of document `d` (every
caller of `updateHistory` passes the document it also makes current), undo,
redo, a remote update and clear-canvas; and the renewal of the subscription,
which decides what a later remote update reads. -/
inductive HistoryOp where
  | commit (d : Document)
  | undo
  | redo
  | remoteUpdate (data : SessionSnapshot)
  | clearCanvas
  | resubscribe
deriving DecidableEq, Repr

/-- One history operation applied to a state. -/
def applyHistoryOp (s : State) : HistoryOp → State
  | .commit d => updateHistory { s with elements := d } d
  | .undo => handleUndo s
  | .redo => handleRedo s
  | .remoteUpdate data => onSnapshot s data
  | .clearCanvas => handleClearCanvas s
  | .resubscribe => resubscribe s

/-- A sequence of history operations applied from left to right. -/
def runHistoryOps (s : State) (ops : List HistoryOp) : State :=
  ops.foldl applyHistoryOp s

/-- The invariant of the history stack: `0 ≤ index < length`. -/
def historyInvariant (s : State) : Prop :=
  s.history ≠ [] ∧ s.historyIndex < s.history.length

/-- Everything that can happen to a mounted `WhiteboardScreen`: the three
pointer handlers, the wheel, the space key, the text area, the toolbar and a
delivery of the session record, and a render of `App` that renews the
subscription. -/
inductive Event where
  | mouseDown (id : String) (e : MouseInput)
  | mouseMove (e : MouseInput)
  | mouseUp
  | wheel (e : WheelInput)
  | keyDown (isSpace : Bool)
  | keyUp (isSpace : Bool)
  | textChange (value : String)
  | textBlur
  | undo
  | redo
  | clearCanvas
  | snapshot (data : SessionSnapshot)
  | setTool (tool : Tool)
  | setShape (shape : Shape)
  | setColor (color : String)
  | lineWidthMinus
  | lineWidthPlus
  | resubscribe
deriving DecidableEq, Repr

/-- One event applied to a state.  The line width buttons set
`Math.max(1, lineWidth - 2)` and `Math.min(50, lineWidth + 2)`. -/
def applyEvent (sqrt : ℚ → ℚ) (trim : String → String) (s : State) : Event → State
  | .mouseDown id e => handleMouseDown sqrt id s e
  | .mouseMove e => handleMouseMove sqrt s e
  | .mouseUp => handleMouseUp s
  | .wheel e => handleWheel s e
  | .keyDown isSpace => handleKeyDown s isSpace
  | .keyUp isSpace => handleKeyUp s isSpace
  | .textChange value => handleTextChange s value
  | .textBlur => handleTextBlur trim s
  | .undo => handleUndo s
  | .redo => handleRedo s
  | .clearCanvas => handleClearCanvas s
  | .snapshot data => onSnapshot s data
  | .setTool tool => { s with tool := tool }
  | .setShape shape => { s with shape := shape }
  | .setColor color => { s with color := color }
  | .lineWidthMinus => { s with lineWidth := max 1 (s.lineWidth - 2) }
  | .lineWidthPlus => { s with lineWidth := min 50 (s.lineWidth + 2) }
  | .resubscribe => resubscribe s

/-- A sequence of events applied from left to right. -/
def runEvents (sqrt : ℚ → ℚ) (trim : String → String) (s : State) (events : List Event) : State :=
  events.foldl (applyEvent sqrt trim) s

/-- The document of the multi-selection scenario: two rectangles far apart. -/
def scenarioDocument : Document :=
  [.rectangle "a" 0 0 10 10 "#00aaff" (some 5), .rectangle "b" 100 100 10 10 "#00aaff" (some 5)]

/-- The select tool on `scenarioDocument`, committed, identity view transform. -/
def scenarioStart : State :=
  { elements := scenarioDocument
    history := [[], scenarioDocument]
    historyIndex := 1
    tool := Tool.select }

/-- A marquee gesture around both rectangles: press on empty canvas at
(-50,-50), drag to (200,200), release. -/
def scenarioAfterMarquee : State :=
  runEvents (fun v => v) (fun t => t) scenarioStart
    [.mouseDown "1u" ⟨-50, -50, 0, 0⟩, .mouseMove ⟨200, 200, 0, 0⟩, .mouseUp]

/-- A drag begun inside rectangle `a` at (5,5), through (7,9), to (15,25): a
delta of (10,20). -/
def scenarioAfterDrag : State :=
  runEvents (fun v => v) (fun t => t) scenarioAfterMarquee
    [.mouseDown "2u" ⟨5, 5, 0, 0⟩, .mouseMove ⟨7, 9, 0, 0⟩, .mouseMove ⟨15, 25, 0, 0⟩]

/-- The axis-aligned overlap test in which rectangles that only touch along an
edge or at a corner count: on each axis the two closed intervals meet. -/
abbrev overlapsClosed (a b : Bounds) : Prop :=
  b.x ≤ a.x + a.width ∧ a.x ≤ b.x + b.width ∧ b.y ≤ a.y + a.height ∧ a.y ≤ b.y + b.height

/-! ## Auxiliary facts about `Math.min` and `Math.max` -/

theorem foldl_min_le_init (as : List ℚ) (a : ℚ) : as.foldl min a ≤ a := by
  induction as generalizing a with
  | nil => simp
  | cons b bs ih => exact le_trans (ih (min a b)) (min_le_left a b)

theorem foldl_min_le_of_mem (as : List ℚ) (a v : ℚ) (hv : v ∈ as) : as.foldl min a ≤ v := by
  induction as generalizing a with
  | nil => simp at hv
  | cons b bs ih =>
    rcases List.mem_cons.mp hv with h | h
    · subst h
      exact le_trans (foldl_min_le_init bs (min a v)) (min_le_right a v)
    · exact ih (min a b) h

theorem foldl_min_mem (as : List ℚ) (a : ℚ) : as.foldl min a ∈ a :: as := by
  induction as generalizing a with
  | nil => simp
  | cons b bs ih =>
    have h := ih (min a b)
    rcases List.mem_cons.mp h with h | h
    · rcases min_choice a b with hc | hc
      · rw [List.foldl_cons, h, hc]; simp
      · rw [List.foldl_cons, h, hc]; simp
    · exact List.mem_cons_of_mem _ (List.mem_cons_of_mem _ h)

theorem init_le_foldl_max (as : List ℚ) (a : ℚ) : a ≤ as.foldl max a := by
  induction as generalizing a with
  | nil => simp
  | cons b bs ih => exact le_trans (le_max_left a b) (ih (max a b))

theorem le_foldl_max_of_mem (as : List ℚ) (a v : ℚ) (hv : v ∈ as) : v ≤ as.foldl max a := by
  induction as generalizing a with
  | nil => simp at hv
  | cons b bs ih =>
    rcases List.mem_cons.mp hv with h | h
    · subst h
      exact le_trans (le_max_right a v) (init_le_foldl_max bs (max a v))
    · exact ih (max a b) h

theorem foldl_max_mem (as : List ℚ) (a : ℚ) : as.foldl max a ∈ a :: as := by
  induction as generalizing a with
  | nil => simp
  | cons b bs ih =>
    have h := ih (max a b)
    rcases List.mem_cons.mp h with h | h
    · rcases max_choice a b with hc | hc
      · rw [List.foldl_cons, h, hc]; simp
      · rw [List.foldl_cons, h, hc]; simp
    · exact List.mem_cons_of_mem _ (List.mem_cons_of_mem _ h)

/-- On a non-empty list `mathMin` answers a member that is below every member. -/
theorem mathMin_spec (xs : List ℚ) (h : xs ≠ []) :
    ∃ m, mathMin xs = some m ∧ m ∈ xs ∧ ∀ v ∈ xs, m ≤ v := by
  cases xs with
  | nil => exact absurd rfl h
  | cons a as =>
    refine ⟨as.foldl min a, rfl, foldl_min_mem as a, ?_⟩
    intro v hv
    rcases List.mem_cons.mp hv with h1 | h1
    · subst h1; exact foldl_min_le_init as v
    · exact foldl_min_le_of_mem as a v h1

/-- On a non-empty list `mathMax` answers a member that is above every member. -/
theorem mathMax_spec (xs : List ℚ) (h : xs ≠ []) :
    ∃ m, mathMax xs = some m ∧ m ∈ xs ∧ ∀ v ∈ xs, v ≤ m := by
  cases xs with
  | nil => exact absurd rfl h
  | cons a as =>
    refine ⟨as.foldl max a, rfl, foldl_max_mem as a, ?_⟩
    intro v hv
    rcases List.mem_cons.mp hv with h1 | h1
    · subst h1; exact init_le_foldl_max as v
    · exact le_foldl_max_of_mem as a v h1

/-- Bounds of a path with at least one point, in terms of the extreme coordinates. -/
theorem getElementBounds_path (id : String) (path : List Point) (color : String)
    (lw : Option ℚ) (h : path ≠ []) :
    ∃ minX minY maxX maxY : ℚ,
      (minX ∈ path.map (fun p => p.x) ∧ ∀ p ∈ path, minX ≤ p.x) ∧
      (minY ∈ path.map (fun p => p.y) ∧ ∀ p ∈ path, minY ≤ p.y) ∧
      (maxX ∈ path.map (fun p => p.x) ∧ ∀ p ∈ path, p.x ≤ maxX) ∧
      (maxY ∈ path.map (fun p => p.y) ∧ ∀ p ∈ path, p.y ≤ maxY) ∧
      getElementBounds (.path id path color lw) =
        some { x := minX - (lw.getD 0 / 2 + 5)
               y := minY - (lw.getD 0 / 2 + 5)
               width := (maxX - minX) + 2 * (lw.getD 0 / 2 + 5)
               height := (maxY - minY) + 2 * (lw.getD 0 / 2 + 5) } := by
  have hx : path.map (fun p => p.x) ≠ [] := by simpa using h
  have hy : path.map (fun p => p.y) ≠ [] := by simpa using h
  obtain ⟨minX, e1, m1, l1⟩ := mathMin_spec _ hx
  obtain ⟨minY, e2, m2, l2⟩ := mathMin_spec _ hy
  obtain ⟨maxX, e3, m3, l3⟩ := mathMax_spec _ hx
  obtain ⟨maxY, e4, m4, l4⟩ := mathMax_spec _ hy
  refine ⟨minX, minY, maxX, maxY, ⟨m1, ?_⟩, ⟨m2, ?_⟩, ⟨m3, ?_⟩, ⟨m4, ?_⟩, ?_⟩
  · intro p hp; exact l1 _ (List.mem_map_of_mem _ hp)
  · intro p hp; exact l2 _ (List.mem_map_of_mem _ hp)
  · intro p hp; exact l3 _ (List.mem_map_of_mem _ hp)
  · intro p hp; exact l4 _ (List.mem_map_of_mem _ hp)
  · simp only [getElementBounds, e1, e2, e3, e4, Element.lineWidth, padding]
    congr 2 <;> ring

theorem getElementBounds_rectangle (id : String) (x y width height : ℚ) (color : String)
    (lw : Option ℚ) :
    getElementBounds (.rectangle id x y width height color lw) =
      some { x := min x (x + width) - 5, y := min y (y + height) - 5
             width := |width| + 10, height := |height| + 10 } := by
  simp [getElementBounds]

theorem getElementBounds_text (id : String) (x y width height : ℚ) (text color : String)
    (fontSize : ℚ) :
    getElementBounds (.text id x y width height text color fontSize) =
      some { x := min x (x + width) - 5, y := min y (y + height) - 5
             width := |width| + 10, height := |height| + 10 } := by
  simp [getElementBounds]

theorem getElementBounds_circle (id : String) (x y radius : ℚ) (color : String)
    (lw : Option ℚ) :
    getElementBounds (.circle id x y radius color lw) =
      some { x := x - radius - (lw.getD 0 / 2 + 5), y := y - radius - (lw.getD 0 / 2 + 5)
             width := 2 * (radius + (lw.getD 0 / 2 + 5))
             height := 2 * (radius + (lw.getD 0 / 2 + 5)) } := by
  simp only [getElementBounds, Element.lineWidth, padding]
  congr 2 <;> ring

theorem getElementBounds_line (id : String) (x y x2 y2 : ℚ) (color : String)
    (lw : Option ℚ) :
    getElementBounds (.line id x y x2 y2 color lw) =
      some { x := min x x2 - (lw.getD 0 / 2 + 5), y := min y y2 - (lw.getD 0 / 2 + 5)
             width := |x - x2| + 2 * (lw.getD 0 / 2 + 5)
             height := |y - y2| + 2 * (lw.getD 0 / 2 + 5) } := by
  simp only [getElementBounds, Element.lineWidth, padding]
  congr 2 <;> ring

/-! ## Geometry kernel: the bounds of each variant -/

/-- C1: `getElementBounds` returns, for a path with at least one point, the box of
the least and greatest point coordinates grown by `p` on every side; for a
rectangle or text, the normalised box grown by 5 whatever the line width; for a
circle, the square around it grown by `p`; for a line, the normalised box of the
endpoints grown by `p`; where `p = lineWidth / 2 + 5` and an absent line width
counts as 0. -/
theorem getElementBounds_exact :
    (∀ (id : String) (path : List Point) (color : String) (lw : Option ℚ), path ≠ [] →
      ∃ minX minY maxX maxY : ℚ,
        (minX ∈ path.map (fun p => p.x) ∧ ∀ p ∈ path, minX ≤ p.x) ∧
        (minY ∈ path.map (fun p => p.y) ∧ ∀ p ∈ path, minY ≤ p.y) ∧
        (maxX ∈ path.map (fun p => p.x) ∧ ∀ p ∈ path, p.x ≤ maxX) ∧
        (maxY ∈ path.map (fun p => p.y) ∧ ∀ p ∈ path, p.y ≤ maxY) ∧
        getElementBounds (.path id path color lw) =
          some { x := minX - (lw.getD 0 / 2 + 5)
                 y := minY - (lw.getD 0 / 2 + 5)
                 width := (maxX - minX) + 2 * (lw.getD 0 / 2 + 5)
                 height := (maxY - minY) + 2 * (lw.getD 0 / 2 + 5) }) ∧
    (∀ (id : String) (x y width height : ℚ) (color : String) (lw : Option ℚ),
      getElementBounds (.rectangle id x y width height color lw) =
        some { x := min x (x + width) - 5, y := min y (y + height) - 5
               width := |width| + 10, height := |height| + 10 }) ∧
    (∀ (id : String) (x y width height : ℚ) (text color : String) (fontSize : ℚ),
      getElementBounds (.text id x y width height text color fontSize) =
        some { x := min x (x + width) - 5, y := min y (y + height) - 5
               width := |width| + 10, height := |height| + 10 }) ∧
    (∀ (id : String) (x y radius : ℚ) (color : String) (lw : Option ℚ),
      getElementBounds (.circle id x y radius color lw) =
        some { x := x - radius - (lw.getD 0 / 2 + 5), y := y - radius - (lw.getD 0 / 2 + 5)
               width := 2 * (radius + (lw.getD 0 / 2 + 5))
               height := 2 * (radius + (lw.getD 0 / 2 + 5)) }) ∧
    (∀ (id : String) (x y x2 y2 : ℚ) (color : String) (lw : Option ℚ),
      getElementBounds (.line id x y x2 y2 color lw) =
        some { x := min x x2 - (lw.getD 0 / 2 + 5), y := min y y2 - (lw.getD 0 / 2 + 5)
               width := |x - x2| + 2 * (lw.getD 0 / 2 + 5)
               height := |y - y2| + 2 * (lw.getD 0 / 2 + 5) }) := by
  exact ⟨getElementBounds_path, getElementBounds_rectangle, getElementBounds_text,
    getElementBounds_circle, getElementBounds_line⟩

/-- Witness of C1 on the three-point path of the second end-to-end scenario. -/
theorem getElementBounds_exact_witness :
    ([⟨0, 0⟩, ⟨10, 0⟩, ⟨10, 10⟩] : List Point) ≠ [] ∧
    ∃ minX minY maxX maxY : ℚ,
      (minX ∈ ([⟨0, 0⟩, ⟨10, 0⟩, ⟨10, 10⟩] : List Point).map (fun p => p.x) ∧
        ∀ p ∈ ([⟨0, 0⟩, ⟨10, 0⟩, ⟨10, 10⟩] : List Point), minX ≤ p.x) ∧
      (minY ∈ ([⟨0, 0⟩, ⟨10, 0⟩, ⟨10, 10⟩] : List Point).map (fun p => p.y) ∧
        ∀ p ∈ ([⟨0, 0⟩, ⟨10, 0⟩, ⟨10, 10⟩] : List Point), minY ≤ p.y) ∧
      (maxX ∈ ([⟨0, 0⟩, ⟨10, 0⟩, ⟨10, 10⟩] : List Point).map (fun p => p.x) ∧
        ∀ p ∈ ([⟨0, 0⟩, ⟨10, 0⟩, ⟨10, 10⟩] : List Point), p.x ≤ maxX) ∧
      (maxY ∈ ([⟨0, 0⟩, ⟨10, 0⟩, ⟨10, 10⟩] : List Point).map (fun p => p.y) ∧
        ∀ p ∈ ([⟨0, 0⟩, ⟨10, 0⟩, ⟨10, 10⟩] : List Point), p.y ≤ maxY) ∧
      getElementBounds (.path "a" [⟨0, 0⟩, ⟨10, 0⟩, ⟨10, 10⟩] "#00aaff" (some 5)) =
        some { x := minX - ((some (5 : ℚ)).getD 0 / 2 + 5)
               y := minY - ((some (5 : ℚ)).getD 0 / 2 + 5)
               width := (maxX - minX) + 2 * ((some (5 : ℚ)).getD 0 / 2 + 5)
               height := (maxY - minY) + 2 * ((some (5 : ℚ)).getD 0 / 2 + 5) } :=
  ⟨by simp, getElementBounds_exact.1 "a" [⟨0, 0⟩, ⟨10, 0⟩, ⟨10, 10⟩] "#00aaff" (some 5) (by simp)⟩

/-- A box given by extreme coordinates that are attained, grown by `pad`, holds
the padded extent and lies inside every box that holds it. -/
theorem padded_box_least (E : Point → Prop) (pad lx ly hx hy : ℚ) (hpad : 0 ≤ pad)
    (hlx : ∃ q, E q ∧ q.x = lx) (hhx : ∃ q, E q ∧ q.x = hx)
    (hly : ∃ q, E q ∧ q.y = ly) (hhy : ∃ q, E q ∧ q.y = hy)
    (hin : ∀ q, E q → lx ≤ q.x ∧ q.x ≤ hx ∧ ly ≤ q.y ∧ q.y ≤ hy)
    (b : Bounds) (hbx : b.x = lx - pad) (hby : b.y = ly - pad)
    (hbw : b.x + b.width = hx + pad) (hbh : b.y + b.height = hy + pad) :
    (∀ q, (∃ q0, E q0 ∧ |q.x - q0.x| ≤ pad ∧ |q.y - q0.y| ≤ pad) →
      isPointInsideBounds q (some b) = true) ∧
    (∀ r : Bounds,
      (∀ q, (∃ q0, E q0 ∧ |q.x - q0.x| ≤ pad ∧ |q.y - q0.y| ≤ pad) →
        isPointInsideBounds q (some r) = true) → containsBounds r b) := by
  constructor
  · rintro q ⟨q0, hE, h1, h2⟩
    obtain ⟨a1, a2, a3, a4⟩ := hin q0 hE
    have h1 := abs_le.mp h1
    have h2 := abs_le.mp h2
    simp only [isPointInsideBounds, Bool.and_eq_true, decide_eq_true_eq, ge_iff_le]
    refine ⟨⟨⟨?_, ?_⟩, ?_⟩, ?_⟩ <;> linarith
  · intro r hr
    have key : ∀ q0, E q0 → ∀ dx dy : ℚ, |dx| ≤ pad → |dy| ≤ pad →
        r.x ≤ q0.x + dx ∧ q0.x + dx ≤ r.x + r.width ∧
        r.y ≤ q0.y + dy ∧ q0.y + dy ≤ r.y + r.height := by
      intro q0 hE dx dy hdx hdy
      have := hr ⟨q0.x + dx, q0.y + dy⟩ ⟨q0, hE, by simpa using hdx, by simpa using hdy⟩
      simp only [isPointInsideBounds, Bool.and_eq_true, decide_eq_true_eq, ge_iff_le] at this
      exact ⟨this.1.1.1, this.1.1.2, this.1.2, this.2⟩
    have hneg : |(-pad)| ≤ pad := by rw [abs_neg, abs_of_nonneg hpad]
    have hpos : |pad| ≤ pad := by rw [abs_of_nonneg hpad]
    obtain ⟨q1, e1, x1⟩ := hlx
    obtain ⟨q2, e2, x2⟩ := hhx
    obtain ⟨q3, e3, x3⟩ := hly
    obtain ⟨q4, e4, x4⟩ := hhy
    have k1 := key q1 e1 (-pad) (-pad) hneg hneg
    have k2 := key q2 e2 pad pad hpos hpos
    have k3 := key q3 e3 (-pad) (-pad) hneg hneg
    have k4 := key q4 e4 pad pad hpos hpos
    refine ⟨?_, ?_, ?_, ?_⟩ <;> linarith

theorem min_add_abs_eq_max (a w : ℚ) : min a (a + w) + |w| = max a (a + w) := by
  rcases le_total 0 w with h | h
  · rw [abs_of_nonneg h, min_eq_left (by linarith), max_eq_right (by linarith)]
  · rw [abs_of_nonpos h, min_eq_right (by linarith), max_eq_left (by linarith)]; ring

theorem min_add_abs_sub_eq_max (a c : ℚ) : min a c + |a - c| = max a c := by
  rcases le_total a c with h | h
  · rw [abs_of_nonpos (by linarith), min_eq_left h, max_eq_right h]; ring
  · rw [abs_of_nonneg (by linarith), min_eq_right h, max_eq_left h]; ring

/-- The padded-box property for a box with two corner coordinates per axis. -/
theorem corners_box_least (x xw y yh pad : ℚ) (hpad : 0 ≤ pad) (b : Bounds)
    (hbx : b.x = min x xw - pad) (hby : b.y = min y yh - pad)
    (hbw : b.x + b.width = max x xw + pad) (hbh : b.y + b.height = max y yh + pad) :
    (∀ q, (∃ q0 : Point, ((q0.x = x ∨ q0.x = xw) ∧ (q0.y = y ∨ q0.y = yh)) ∧
        |q.x - q0.x| ≤ pad ∧ |q.y - q0.y| ≤ pad) →
      isPointInsideBounds q (some b) = true) ∧
    (∀ r : Bounds,
      (∀ q, (∃ q0 : Point, ((q0.x = x ∨ q0.x = xw) ∧ (q0.y = y ∨ q0.y = yh)) ∧
          |q.x - q0.x| ≤ pad ∧ |q.y - q0.y| ≤ pad) →
        isPointInsideBounds q (some r) = true) → containsBounds r b) := by
  apply padded_box_least (fun q0 => (q0.x = x ∨ q0.x = xw) ∧ (q0.y = y ∨ q0.y = yh))
    pad (min x xw) (min y yh) (max x xw) (max y yh) hpad
  · rcases min_choice x xw with h | h
    · exact ⟨⟨x, y⟩, ⟨Or.inl rfl, Or.inl rfl⟩, h.symm⟩
    · exact ⟨⟨xw, y⟩, ⟨Or.inr rfl, Or.inl rfl⟩, h.symm⟩
  · rcases max_choice x xw with h | h
    · exact ⟨⟨x, y⟩, ⟨Or.inl rfl, Or.inl rfl⟩, h.symm⟩
    · exact ⟨⟨xw, y⟩, ⟨Or.inr rfl, Or.inl rfl⟩, h.symm⟩
  · rcases min_choice y yh with h | h
    · exact ⟨⟨x, y⟩, ⟨Or.inl rfl, Or.inl rfl⟩, h.symm⟩
    · exact ⟨⟨x, yh⟩, ⟨Or.inl rfl, Or.inr rfl⟩, h.symm⟩
  · rcases max_choice y yh with h | h
    · exact ⟨⟨x, y⟩, ⟨Or.inl rfl, Or.inl rfl⟩, h.symm⟩
    · exact ⟨⟨x, yh⟩, ⟨Or.inl rfl, Or.inr rfl⟩, h.symm⟩
  · rintro q ⟨hx, hy⟩
    refine ⟨?_, ?_, ?_, ?_⟩
    · rcases hx with h | h <;> rw [h]
      exacts [min_le_left _ _, min_le_right _ _]
    · rcases hx with h | h <;> rw [h]
      exacts [le_max_left _ _, le_max_right _ _]
    · rcases hy with h | h <;> rw [h]
      exacts [min_le_left _ _, min_le_right _ _]
    · rcases hy with h | h <;> rw [h]
      exacts [le_max_left _ _, le_max_right _ _]
  · exact hbx
  · exact hby
  · exact hbw
  · exact hbh

theorem padding_nonneg (lw : Option ℚ) (h : 0 ≤ lw.getD 0) : 0 ≤ lw.getD 0 / 2 + 5 := by
  linarith

/-- C2: for every valid element, degenerate ones included, `getElementBounds`
returns a rectangle that holds every point of the element's extent displaced
by up to the variant's padding along each axis, and that rectangle lies inside
every rectangle holding that padded extent: it is the least one. -/
theorem getElementBounds_least_padded_box (e : Element) (hv : validElement e) :
    ∃ b, getElementBounds e = some b ∧
      (∀ q, inPaddedExtent e q → isPointInsideBounds q (some b) = true) ∧
      (∀ r : Bounds, (∀ q, inPaddedExtent e q → isPointInsideBounds q (some r) = true) →
        containsBounds r b) := by
  cases e with
  | path id path color lw =>
    obtain ⟨hne, hlw⟩ := hv
    obtain ⟨minX, minY, maxX, maxY, ⟨m1, l1⟩, ⟨m2, l2⟩, ⟨m3, l3⟩, ⟨m4, l4⟩, hb⟩ :=
      getElementBounds_path id path color lw hne
    refine ⟨_, hb, ?_⟩
    simp only [inPaddedExtent, inExtent, variantPadding, Element.lineWidth]
    obtain ⟨p1, hp1, e1⟩ := List.mem_map.mp m1
    obtain ⟨p2, hp2, e2⟩ := List.mem_map.mp m2
    obtain ⟨p3, hp3, e3⟩ := List.mem_map.mp m3
    obtain ⟨p4, hp4, e4⟩ := List.mem_map.mp m4
    apply padded_box_least (fun q0 => q0 ∈ path) (lw.getD 0 / 2 + 5) minX minY maxX maxY
      (padding_nonneg lw hlw) ⟨p1, hp1, e1⟩ ⟨p3, hp3, e3⟩ ⟨p2, hp2, e2⟩ ⟨p4, hp4, e4⟩
    · intro q hq
      exact ⟨l1 q hq, l3 q hq, l2 q hq, l4 q hq⟩
    · rfl
    · rfl
    · show minX - _ + _ = _
      ring
    · show minY - _ + _ = _
      ring
  | rectangle id x y width height color lw =>
    refine ⟨_, getElementBounds_rectangle id x y width height color lw, ?_⟩
    simp only [inPaddedExtent, inExtent, variantPadding]
    apply corners_box_least x (x + width) y (y + height) 5 (by norm_num)
    · rfl
    · rfl
    · show min x (x + width) - 5 + (|width| + 10) = _
      linarith [min_add_abs_eq_max x width]
    · show min y (y + height) - 5 + (|height| + 10) = _
      linarith [min_add_abs_eq_max y height]
  | text id x y width height text color fontSize =>
    refine ⟨_, getElementBounds_text id x y width height text color fontSize, ?_⟩
    simp only [inPaddedExtent, inExtent, variantPadding]
    apply corners_box_least x (x + width) y (y + height) 5 (by norm_num)
    · rfl
    · rfl
    · show min x (x + width) - 5 + (|width| + 10) = _
      linarith [min_add_abs_eq_max x width]
    · show min y (y + height) - 5 + (|height| + 10) = _
      linarith [min_add_abs_eq_max y height]
  | circle id x y radius color lw =>
    obtain ⟨hr, hlw⟩ := hv
    refine ⟨_, getElementBounds_circle id x y radius color lw, ?_⟩
    simp only [inPaddedExtent, inExtent, variantPadding, Element.lineWidth]
    apply padded_box_least (fun q0 => (q0.x - x) ^ 2 + (q0.y - y) ^ 2 ≤ radius ^ 2)
      (lw.getD 0 / 2 + 5) (x - radius) (y - radius) (x + radius) (y + radius)
      (padding_nonneg lw hlw)
    · exact ⟨⟨x - radius, y⟩, by simp, rfl⟩
    · exact ⟨⟨x + radius, y⟩, by simp, rfl⟩
    · exact ⟨⟨x, y - radius⟩, by simp, rfl⟩
    · exact ⟨⟨x, y + radius⟩, by simp, rfl⟩
    · intro q hq
      have hx : (q.x - x) ^ 2 ≤ radius ^ 2 := by nlinarith [sq_nonneg (q.y - y)]
      have hy : (q.y - y) ^ 2 ≤ radius ^ 2 := by nlinarith [sq_nonneg (q.x - x)]
      have ax := abs_le_of_sq_le_sq' hx hr
      have ay := abs_le_of_sq_le_sq' hy hr
      refine ⟨?_, ?_, ?_, ?_⟩ <;> linarith [ax.1, ax.2, ay.1, ay.2]
    · rfl
    · rfl
    · show x - radius - _ + 2 * (radius + _) = _
      ring
    · show y - radius - _ + 2 * (radius + _) = _
      ring
  | line id x y x2 y2 color lw =>
    have hlw : 0 ≤ lw.getD 0 := hv
    refine ⟨_, getElementBounds_line id x y x2 y2 color lw, ?_⟩
    simp only [inPaddedExtent, inExtent, variantPadding, Element.lineWidth]
    apply padded_box_least (fun q0 => (q0.x = x ∧ q0.y = y) ∨ (q0.x = x2 ∧ q0.y = y2))
      (lw.getD 0 / 2 + 5) (min x x2) (min y y2) (max x x2) (max y y2)
      (padding_nonneg lw hlw)
    · rcases min_choice x x2 with h | h
      · exact ⟨⟨x, y⟩, Or.inl ⟨rfl, rfl⟩, h.symm⟩
      · exact ⟨⟨x2, y2⟩, Or.inr ⟨rfl, rfl⟩, h.symm⟩
    · rcases max_choice x x2 with h | h
      · exact ⟨⟨x, y⟩, Or.inl ⟨rfl, rfl⟩, h.symm⟩
      · exact ⟨⟨x2, y2⟩, Or.inr ⟨rfl, rfl⟩, h.symm⟩
    · rcases min_choice y y2 with h | h
      · exact ⟨⟨x, y⟩, Or.inl ⟨rfl, rfl⟩, h.symm⟩
      · exact ⟨⟨x2, y2⟩, Or.inr ⟨rfl, rfl⟩, h.symm⟩
    · rcases max_choice y y2 with h | h
      · exact ⟨⟨x, y⟩, Or.inl ⟨rfl, rfl⟩, h.symm⟩
      · exact ⟨⟨x2, y2⟩, Or.inr ⟨rfl, rfl⟩, h.symm⟩
    · rintro q (⟨h1, h2⟩ | ⟨h1, h2⟩) <;> rw [h1, h2]
      · exact ⟨min_le_left _ _, le_max_left _ _, min_le_left _ _, le_max_left _ _⟩
      · exact ⟨min_le_right _ _, le_max_right _ _, min_le_right _ _, le_max_right _ _⟩
    · rfl
    · rfl
    · show min x x2 - _ + (|x - x2| + _) = _
      linarith [min_add_abs_sub_eq_max x x2]
    · show min y y2 - _ + (|y - y2| + _) = _
      linarith [min_add_abs_sub_eq_max y y2]

/-- Witness of C2 on a degenerate circle: radius 0, no line width. -/
theorem getElementBounds_least_padded_box_witness :
    validElement (.circle "c" 3 4 0 "#00aaff" none) ∧
    ∃ b, getElementBounds (.circle "c" 3 4 0 "#00aaff" none) = some b ∧
      (∀ q, inPaddedExtent (.circle "c" 3 4 0 "#00aaff" none) q →
        isPointInsideBounds q (some b) = true) ∧
      (∀ r : Bounds,
        (∀ q, inPaddedExtent (.circle "c" 3 4 0 "#00aaff" none) q →
          isPointInsideBounds q (some r) = true) →
        containsBounds r b) :=
  ⟨by simp [validElement],
   getElementBounds_least_padded_box (.circle "c" 3 4 0 "#00aaff" none)
     (by simp [validElement])⟩

/-! ## The rectangle of the first end-to-end scenario -/

/-- While a rectangle is being drawn, pointer moves change its width and height only. -/
theorem foldl_updateDrawnElement_rectangle (sqrt : ℚ → ℚ) (id : String) (x y : ℚ)
    (color : String) (lw : Option ℚ) (moves : List Point) (w h : ℚ) :
    ∃ w1 h1, moves.foldl (fun el (p : Point) => updateDrawnElement sqrt el p.x p.y)
      (.rectangle id x y w h color lw) = .rectangle id x y w1 h1 color lw := by
  induction moves generalizing w h with
  | nil => exact ⟨w, h, rfl⟩
  | cons p ps ih => exact ih (p.x - x) (p.y - y)

/-- C3, as the specification words it, fails: the rectangle dragged from (10,10)
to (50,40) has bounds of width 50 and height 40, not 55 and 45. -/
theorem rectangle_drag_bounds_counterexample :
    (createElement (fun v => v) ({ tool := .shape, shape := .rectangle } : State)
          "r" 10 10 10 10).map (fun el => updateDrawnElement (fun v => v) el 50 40) =
        some (.rectangle "r" 10 10 40 30 "#00aaff" (some 5)) ∧
    getElementBounds (.rectangle "r" 10 10 40 30 "#00aaff" (some 5)) ≠
      some { x := 5, y := 5, width := 55, height := 45 } := by
  constructor
  · simp [createElement, updateDrawnElement]
    norm_num
  · rw [getElementBounds_rectangle]
    intro h
    have hw := congrArg (fun b => b.map Bounds.width) h
    norm_num at hw

/-- C3, amended: with the shape tool set to rectangle, pressing at world (10,10)
and dragging to world (50,40), through any intermediate pointer positions,
leaves the element `x = 10, y = 10, width = 40, height = 30` with the current
colour and line width, and `getElementBounds` of it is
`x = 5, y = 5, width = 50, height = 40` whatever the line width. -/
theorem rectangle_drag_bounds (sqrt : ℚ → ℚ) (s : State) (id : String) (moves : List Point)
    (ht : s.tool = .shape) (hs : s.shape = .rectangle) :
    ∃ el, createElement sqrt s id 10 10 10 10 = some el ∧
      (moves ++ [(⟨50, 40⟩ : Point)]).foldl
          (fun el (p : Point) => updateDrawnElement sqrt el p.x p.y) el =
        .rectangle id 10 10 40 30 s.color (some s.lineWidth) ∧
      getElementBounds (.rectangle id 10 10 40 30 s.color (some s.lineWidth)) =
        some { x := 5, y := 5, width := 50, height := 40 } := by
  refine ⟨.rectangle id 10 10 (10 - 10) (10 - 10) s.color (some s.lineWidth), ?_, ?_, ?_⟩
  · simp [createElement, ht, hs]
  · obtain ⟨w1, h1, e⟩ := foldl_updateDrawnElement_rectangle sqrt id 10 10 s.color
      (some s.lineWidth) moves (10 - 10) (10 - 10)
    rw [List.foldl_append, e]
    simp [updateDrawnElement]
    norm_num
  · rw [getElementBounds_rectangle]
    norm_num

/-- Witness of the amended C3 with the default colour and line width and one
intermediate pointer position. -/
theorem rectangle_drag_bounds_witness :
    ({ tool := .shape, shape := .rectangle } : State).tool = .shape ∧
    ({ tool := .shape, shape := .rectangle } : State).shape = .rectangle ∧
    ∃ el, createElement (fun v => v) ({ tool := .shape, shape := .rectangle } : State)
        "r" 10 10 10 10 = some el ∧
      ([(⟨20, 70⟩ : Point)] ++ [(⟨50, 40⟩ : Point)]).foldl
          (fun el (p : Point) => updateDrawnElement (fun v => v) el p.x p.y) el =
        .rectangle "r" 10 10 40 30
          ({ tool := .shape, shape := .rectangle } : State).color
          (some ({ tool := .shape, shape := .rectangle } : State).lineWidth) ∧
      getElementBounds (.rectangle "r" 10 10 40 30
          ({ tool := .shape, shape := .rectangle } : State).color
          (some ({ tool := .shape, shape := .rectangle } : State).lineWidth)) =
        some { x := 5, y := 5, width := 50, height := 40 } :=
  ⟨rfl, rfl, rectangle_drag_bounds (fun v => v) _ "r" [⟨20, 70⟩] rfl rfl⟩

/-! ## Hit-testing -/

theorem isPointInsideBounds_iff (p : Point) (b : Bounds) :
    isPointInsideBounds p (some b) = true ↔
      b.x ≤ p.x ∧ p.x ≤ b.x + b.width ∧ b.y ≤ p.y ∧ p.y ≤ b.y + b.height := by
  simp only [isPointInsideBounds, Bool.and_eq_true, decide_eq_true_eq, ge_iff_le]
  tauto

/-- The scan over the `k` lowest indices finds nothing exactly when none of them
holds an element whose bounds contain the point. -/
theorem getElementAtPositionFrom_eq_none (x y : ℚ) (els : Document) (k : Nat) :
    getElementAtPositionFrom x y els k = none ↔
      ∀ i, i < k → ∀ e, els[i]? = some e →
        ¬ isPointInsideBounds ⟨x, y⟩ (getElementBounds e) = true := by
  induction k with
  | zero => simp [getElementAtPositionFrom]
  | succ k ih =>
    rw [getElementAtPositionFrom]
    by_cases hc : isPointInsideBounds ⟨x, y⟩ ((els[k]?).bind getElementBounds) = true
    · rw [if_pos hc]
      cases hk : els[k]? with
      | none =>
        rw [hk] at hc
        simp [isPointInsideBounds] at hc
      | some e =>
        rw [hk] at hc
        constructor
        · intro h
          cases h
        · intro h
          exact absurd hc (h k (Nat.lt_succ_self k) e hk)
    · rw [if_neg hc, ih]
      constructor
      · intro h i hi e he
        rcases Nat.lt_succ_iff_lt_or_eq.mp hi with h1 | h1
        · exact h i h1 e he
        · subst h1
          rw [he] at hc
          exact hc
      · intro h i hi e he
        exact h i (Nat.lt_succ_of_lt hi) e he

/-- The scan over the `k` lowest indices answers `e` exactly when `e` sits at the
greatest of those indices whose element has the point inside its bounds. -/
theorem getElementAtPositionFrom_eq_some (x y : ℚ) (els : Document) (k : Nat) (e : Element) :
    getElementAtPositionFrom x y els k = some e ↔
      ∃ i, i < k ∧ els[i]? = some e ∧
        isPointInsideBounds ⟨x, y⟩ (getElementBounds e) = true ∧
        ∀ j, i < j → j < k → ∀ e2, els[j]? = some e2 →
          ¬ isPointInsideBounds ⟨x, y⟩ (getElementBounds e2) = true := by
  induction k with
  | zero => simp [getElementAtPositionFrom]
  | succ k ih =>
    rw [getElementAtPositionFrom]
    by_cases hc : isPointInsideBounds ⟨x, y⟩ ((els[k]?).bind getElementBounds) = true
    · rw [if_pos hc]
      constructor
      · intro hk
        rw [hk] at hc
        refine ⟨k, Nat.lt_succ_self k, hk, hc, ?_⟩
        intro j h1 h2
        omega
      · rintro ⟨i, hi, he, _, hno⟩
        rcases Nat.lt_succ_iff_lt_or_eq.mp hi with h1 | h1
        · cases hk : els[k]? with
          | none =>
            rw [hk] at hc
            simp [isPointInsideBounds] at hc
          | some e2 =>
            rw [hk] at hc
            exact absurd hc (hno k h1 (Nat.lt_succ_self k) e2 hk)
        · subst h1
          exact he
    · rw [if_neg hc, ih]
      constructor
      · rintro ⟨i, hi, he, hin, hno⟩
        refine ⟨i, Nat.lt_succ_of_lt hi, he, hin, ?_⟩
        intro j h1 h2 e2 he2
        rcases Nat.lt_succ_iff_lt_or_eq.mp h2 with h3 | h3
        · exact hno j h1 h3 e2 he2
        · subst h3
          rw [he2] at hc
          exact hc
      · rintro ⟨i, hi, he, hin, hno⟩
        rcases Nat.lt_succ_iff_lt_or_eq.mp hi with h1 | h1
        · exact ⟨i, h1, he, hin, fun j h2 h3 => hno j h2 (Nat.lt_succ_of_lt h3)⟩
        · subst h1
          rw [he] at hc
          exact absurd hin hc

theorem getElem?_some_lt {α : Type} (els : List α) (i : Nat) (e : α) (h : els[i]? = some e) :
    i < els.length := by
  by_contra hn
  rw [List.getElem?_eq_none (Nat.le_of_not_lt hn)] at h
  cases h

/-- C4: `getElementAtPosition` answers `none` exactly when no element of the
document has the point inside its bounds, and answers `e` exactly when `e` is
the element at the greatest index whose bounds contain the point; the test is
inclusive, so points on the boundary count; and on a document whose last
element is the path (0,0),(10,0),(10,10) with line width 5, the point (10,5)
finds that path. -/
theorem getElementAtPosition_topmost (x y : ℚ) (elements : Document) :
    (getElementAtPosition x y elements = none ↔
      ∀ e ∈ elements, ¬ isPointInsideBounds ⟨x, y⟩ (getElementBounds e) = true) ∧
    (∀ e, getElementAtPosition x y elements = some e ↔
      ∃ i : Nat, elements[i]? = some e ∧
        isPointInsideBounds ⟨x, y⟩ (getElementBounds e) = true ∧
        ∀ j : Nat, i < j → ∀ e2, elements[j]? = some e2 →
          ¬ isPointInsideBounds ⟨x, y⟩ (getElementBounds e2) = true) ∧
    (∀ (p : Point) (b : Bounds), isPointInsideBounds p (some b) = true ↔
      b.x ≤ p.x ∧ p.x ≤ b.x + b.width ∧ b.y ≤ p.y ∧ p.y ≤ b.y + b.height) ∧
    (∀ (id color : String),
      getElementAtPosition 10 5
          (elements ++ [.path id [⟨0, 0⟩, ⟨10, 0⟩, ⟨10, 10⟩] color (some 5)]) =
        some (.path id [⟨0, 0⟩, ⟨10, 0⟩, ⟨10, 10⟩] color (some 5))) := by
  refine ⟨?_, ?_, isPointInsideBounds_iff, ?_⟩
  · rw [getElementAtPosition, getElementAtPositionFrom_eq_none]
    constructor
    · intro h e he
      obtain ⟨i, hi, hie⟩ := List.getElem_of_mem he
      exact h i hi e (by rw [List.getElem?_eq_getElem hi, hie])
    · intro h i _ e he
      exact h e (List.getElem?_mem he)
  · intro e
    rw [getElementAtPosition, getElementAtPositionFrom_eq_some]
    constructor
    · rintro ⟨i, _, he, hin, hno⟩
      exact ⟨i, he, hin, fun j h1 e2 he2 =>
        hno j h1 (getElem?_some_lt elements j e2 he2) e2 he2⟩
    · rintro ⟨i, he, hin, hno⟩
      exact ⟨i, getElem?_some_lt elements i e he, he, hin, fun j h1 _ => hno j h1⟩
  · intro id color
    rw [getElementAtPosition, List.length_append, List.length_singleton,
      getElementAtPositionFrom]
    have hk : (elements ++ [Element.path id [⟨0, 0⟩, ⟨10, 0⟩, ⟨10, 10⟩] color (some 5)])[
        elements.length]? = some (.path id [⟨0, 0⟩, ⟨10, 0⟩, ⟨10, 10⟩] color (some 5)) := by
      simp
    rw [hk]
    have hin : isPointInsideBounds ⟨10, 5⟩ ((some
        (Element.path id [⟨0, 0⟩, ⟨10, 0⟩, ⟨10, 10⟩] color (some 5))).bind getElementBounds) =
        true := by
      simp [getElementBounds, mathMin, mathMax, padding, Element.lineWidth, isPointInsideBounds]
      norm_num
    rw [if_pos hin]

/-- Instance of C4: the click of the second end-to-end scenario on the document
holding only that path. -/
theorem getElementAtPosition_topmost_witness :
    getElementAtPosition 10 5 ([] ++ [.path "a" [⟨0, 0⟩, ⟨10, 0⟩, ⟨10, 10⟩] "#00aaff" (some 5)]) =
      some (.path "a" [⟨0, 0⟩, ⟨10, 0⟩, ⟨10, 10⟩] "#00aaff" (some 5)) :=
  (getElementAtPosition_topmost 10 5 []).2.2.2 "a" "#00aaff"

/-! ## History manager -/

theorem updateHistory_history (s : State) (d : Document) :
    (updateHistory s d).history = s.history.take (s.historyIndex + 1) ++ [d] := rfl

theorem updateHistory_historyIndex (s : State) (d : Document) :
    (updateHistory s d).historyIndex =
      (s.history.take (s.historyIndex + 1) ++ [d]).length - 1 := rfl

theorem updateHistory_elements (s : State) (d : Document) :
    (updateHistory s d).elements = s.elements := rfl

theorem handleUndo_zero (s : State) (h : s.historyIndex = 0) : handleUndo s = s := by
  simp [handleUndo, h]

theorem handleUndo_pos (s : State) (h : 0 < s.historyIndex) :
    handleUndo s =
      { s with historyIndex := s.historyIndex - 1
               elements := (s.history[s.historyIndex - 1]?).getD []
               published := s.history[s.historyIndex - 1]? } := by
  simp [handleUndo, h, updateFirestoreWithHistory]

theorem handleRedo_last (s : State) (h : ¬ s.historyIndex < s.history.length - 1) :
    handleRedo s = s := by
  simp [handleRedo, h]

theorem handleRedo_lt (s : State) (h : s.historyIndex < s.history.length - 1) :
    handleRedo s =
      { s with historyIndex := s.historyIndex + 1
               elements := (s.history[s.historyIndex + 1]?).getD []
               published := s.history[s.historyIndex + 1]? } := by
  simp [handleRedo, h, updateFirestoreWithHistory]

theorem getD_getElem?_of_lt (h : List Document) (i : Nat) (hi : i < h.length) :
    h[i]? = some ((h[i]?).getD []) := by
  rw [List.getElem?_eq_getElem hi]
  rfl

/-- C5: on a history with `0 ≤ index < length`, `updateHistory` leaves the
first `index + 1` entries followed by the committed document, with the new
index `index + 1`, the last position, so that every entry beyond the old index
is gone; and from entries A, B, C at index 2, two undos and a commit of D leave
entries A, D at index 1. -/
theorem updateHistory_truncates (s : State) (d : Document)
    (h : s.historyIndex < s.history.length) :
    (updateHistory s d).history = s.history.take (s.historyIndex + 1) ++ [d] ∧
    (updateHistory s d).history.length = s.historyIndex + 2 ∧
    (updateHistory s d).historyIndex = s.historyIndex + 1 ∧
    (updateHistory s d).historyIndex = (updateHistory s d).history.length - 1 ∧
    (∀ (A B C D : Document) (s0 : State), s0.history = [A, B, C] → s0.historyIndex = 2 →
      (updateHistory (handleUndo (handleUndo s0)) D).history = [A, D] ∧
      (updateHistory (handleUndo (handleUndo s0)) D).historyIndex = 1) := by
  have hlen : (s.history.take (s.historyIndex + 1) ++ [d]).length = s.historyIndex + 2 := by
    rw [List.length_append, List.length_take, List.length_singleton]
    omega
  refine ⟨rfl, ?_, ?_, ?_, ?_⟩
  · rw [updateHistory_history, hlen]
  · rw [updateHistory_historyIndex, hlen]
    rfl
  · rw [updateHistory_history, updateHistory_historyIndex]
  · intro A B C D s0 h1 h2
    have u1 : (handleUndo s0).history = [A, B, C] ∧ (handleUndo s0).historyIndex = 1 := by
      rw [handleUndo_pos s0 (by omega)]
      simp [h1, h2]
    have u2 : (handleUndo (handleUndo s0)).history = [A, B, C] ∧
        (handleUndo (handleUndo s0)).historyIndex = 0 := by
      rw [handleUndo_pos (handleUndo s0) (by omega)]
      simp [u1.1, u1.2]
    rw [updateHistory_history, updateHistory_historyIndex, u2.1, u2.2]
    simp

/-- Witness of C5 on the history of entries `[]`, `[]` at index 0. -/
theorem updateHistory_truncates_witness :
    ({ history := [[], []], historyIndex := 0 } : State).historyIndex <
      ({ history := [[], []], historyIndex := 0 } : State).history.length ∧
    (updateHistory ({ history := [[], []], historyIndex := 0 } : State)
        [.line "a" 0 0 1 1 "#00aaff" (some 5)]).history =
      [[], [.line "a" 0 0 1 1 "#00aaff" (some 5)]] := by
  refine ⟨by decide, ?_⟩
  have h := (updateHistory_truncates ({ history := [[], []], historyIndex := 0 } : State)
    [.line "a" 0 0 1 1 "#00aaff" (some 5)] (by decide)).1
  simpa using h

/-- C6: on a history with `0 ≤ index < length`, undo changes nothing at index 0
and otherwise lowers the index by one and makes `entries[index - 1]` the
document, entries untouched; redo changes nothing at the last index and
otherwise raises the index by one and makes `entries[index + 1]` the document,
entries untouched.  From the single entry `[]` at index 0, committing D1 gives
entries `[]`, D1 at index 1, undo gives index 0 with document `[]`, redo gives
index 1 with document D1. -/
theorem handleUndo_handleRedo_step (s : State) (h : s.historyIndex < s.history.length) :
    (s.historyIndex = 0 → handleUndo s = s) ∧
    (0 < s.historyIndex →
      (handleUndo s).historyIndex = s.historyIndex - 1 ∧
      s.history[s.historyIndex - 1]? = some (handleUndo s).elements ∧
      (handleUndo s).history = s.history) ∧
    (s.historyIndex = s.history.length - 1 → handleRedo s = s) ∧
    (s.historyIndex ≠ s.history.length - 1 →
      (handleRedo s).historyIndex = s.historyIndex + 1 ∧
      s.history[s.historyIndex + 1]? = some (handleRedo s).elements ∧
      (handleRedo s).history = s.history) ∧
    (∀ (D1 : Document) (s0 : State), s0.history = [[]] → s0.historyIndex = 0 →
      (updateHistory { s0 with elements := D1 } D1).history = [[], D1] ∧
      (updateHistory { s0 with elements := D1 } D1).historyIndex = 1 ∧
      (handleUndo (updateHistory { s0 with elements := D1 } D1)).historyIndex = 0 ∧
      (handleUndo (updateHistory { s0 with elements := D1 } D1)).elements = [] ∧
      (handleRedo (handleUndo (updateHistory { s0 with elements := D1 } D1))).historyIndex = 1 ∧
      (handleRedo (handleUndo (updateHistory { s0 with elements := D1 } D1))).elements = D1) := by
  refine ⟨handleUndo_zero s, ?_, ?_, ?_, ?_⟩
  · intro hpos
    rw [handleUndo_pos s hpos]
    exact ⟨rfl, getD_getElem?_of_lt s.history _ (by omega), rfl⟩
  · intro hlast
    exact handleRedo_last s (by omega)
  · intro hne
    have hlt : s.historyIndex < s.history.length - 1 := by omega
    rw [handleRedo_lt s hlt]
    exact ⟨rfl, getD_getElem?_of_lt s.history _ (by omega), rfl⟩
  · intro D1 s0 h1 h2
    have c : (updateHistory { s0 with elements := D1 } D1).history = [[], D1] ∧
        (updateHistory { s0 with elements := D1 } D1).historyIndex = 1 := by
      rw [updateHistory_history, updateHistory_historyIndex]
      simp [h1, h2]
    have u : (handleUndo (updateHistory { s0 with elements := D1 } D1)).history = [[], D1] ∧
        (handleUndo (updateHistory { s0 with elements := D1 } D1)).historyIndex = 0 ∧
        (handleUndo (updateHistory { s0 with elements := D1 } D1)).elements = [] := by
      rw [handleUndo_pos _ (by omega)]
      simp [c.1, c.2]
    have r : (handleRedo (handleUndo (updateHistory { s0 with elements := D1 } D1))).historyIndex
          = 1 ∧
        (handleRedo (handleUndo (updateHistory { s0 with elements := D1 } D1))).elements
          = D1 := by
      rw [handleRedo_lt _ (by rw [u.1, u.2.1]; simp)]
      simp [u.1, u.2.1]
    exact ⟨c.1, c.2, u.2.1, u.2.2, r.1, r.2⟩

/-- Witness of C6 on the freshly mounted component. -/
theorem handleUndo_handleRedo_step_witness :
    initialState.historyIndex < initialState.history.length ∧
    handleUndo initialState = initialState ∧ handleRedo initialState = initialState :=
  ⟨by decide,
   (handleUndo_handleRedo_step initialState (by decide)).1 rfl,
   (handleUndo_handleRedo_step initialState (by decide)).2.2.1 rfl⟩

/-- C7: when undo is possible and the document is the entry at the index, undo
followed by redo gives back the same document, index and entries. -/
theorem handleRedo_handleUndo_restores (s : State) (hpos : 0 < s.historyIndex)
    (hdoc : s.history[s.historyIndex]? = some s.elements) :
    (handleRedo (handleUndo s)).elements = s.elements ∧
    (handleRedo (handleUndo s)).historyIndex = s.historyIndex ∧
    (handleRedo (handleUndo s)).history = s.history := by
  have hlt : s.historyIndex < s.history.length := getElem?_some_lt s.history _ _ hdoc
  have hu1 : (handleUndo s).historyIndex = s.historyIndex - 1 := by
    rw [handleUndo_pos s hpos]
  have hu2 : (handleUndo s).history = s.history := by
    rw [handleUndo_pos s hpos]
  have hg : (handleUndo s).historyIndex < (handleUndo s).history.length - 1 := by
    rw [hu1, hu2]
    omega
  have hidx : s.historyIndex - 1 + 1 = s.historyIndex := by omega
  rw [handleRedo_lt _ hg]
  refine ⟨?_, ?_, hu2⟩
  · show ((handleUndo s).history[(handleUndo s).historyIndex + 1]?).getD [] = s.elements
    rw [hu1, hu2, hidx, hdoc]
    rfl
  · show (handleUndo s).historyIndex + 1 = s.historyIndex
    rw [hu1, hidx]

/-- Witness of C7 on the state right after a commit of one line. -/
theorem handleRedo_handleUndo_restores_witness :
    0 < ({ elements := [.line "a" 0 0 1 1 "#00aaff" (some 5)]
           history := [[], [.line "a" 0 0 1 1 "#00aaff" (some 5)]]
           historyIndex := 1 } : State).historyIndex ∧
    (handleRedo (handleUndo
      ({ elements := [.line "a" 0 0 1 1 "#00aaff" (some 5)]
         history := [[], [.line "a" 0 0 1 1 "#00aaff" (some 5)]]
         historyIndex := 1 } : State))).elements =
      [.line "a" 0 0 1 1 "#00aaff" (some 5)] :=
  ⟨by decide,
   (handleRedo_handleUndo_restores
      ({ elements := [.line "a" 0 0 1 1 "#00aaff" (some 5)]
         history := [[], [.line "a" 0 0 1 1 "#00aaff" (some 5)]]
         historyIndex := 1 } : State) (by decide) rfl).1⟩

/-! ## The history invariant -/

theorem updateHistory_invariant (s : State) (d : Document) :
    historyInvariant (updateHistory s d) := by
  have hlen : 0 < (s.history.take (s.historyIndex + 1) ++ [d]).length := by
    rw [List.length_append, List.length_singleton]
    omega
  constructor
  · rw [updateHistory_history]
    simp
  · rw [updateHistory_history, updateHistory_historyIndex]
    omega

theorem handleUndo_invariant (s : State) (h : historyInvariant s) :
    historyInvariant (handleUndo s) := by
  by_cases hpos : 0 < s.historyIndex
  · rw [handleUndo_pos s hpos]
    exact ⟨h.1, Nat.lt_of_le_of_lt (Nat.sub_le _ _) h.2⟩
  · rw [handleUndo_zero s (by omega)]
    exact h

theorem handleRedo_invariant (s : State) (h : historyInvariant s) :
    historyInvariant (handleRedo s) := by
  by_cases hlt : s.historyIndex < s.history.length - 1
  · rw [handleRedo_lt s hlt]
    refine ⟨h.1, ?_⟩
    show s.historyIndex + 1 < s.history.length
    omega
  · rw [handleRedo_last s hlt]
    exact h

theorem onSnapshot_invariant (s : State) (data : SessionSnapshot) (h : historyInvariant s) :
    historyInvariant (onSnapshot s data) := by
  unfold onSnapshot
  by_cases hne : data.serverElements ≠ s.subscribedElements
  · simp only [hne, ne_eq, not_false_eq_true, if_true]
    exact ⟨by simp, by simp⟩
  · simp only [hne, if_false]
    exact h

theorem handleClearCanvas_invariant (s : State) (h : historyInvariant s) :
    historyInvariant (handleClearCanvas s) := by
  unfold handleClearCanvas
  by_cases hh : s.isHost = true
  · simp only [hh, Bool.not_true, Bool.false_eq_true, if_false]
    exact updateHistory_invariant _ _
  · simp only [hh, Bool.not_false, Bool.not_eq_true, if_true]
    simpa using h

theorem applyHistoryOp_invariant (s : State) (op : HistoryOp) (h : historyInvariant s) :
    historyInvariant (applyHistoryOp s op) := by
  cases op with
  | commit d => exact updateHistory_invariant _ d
  | undo => exact handleUndo_invariant s h
  | redo => exact handleRedo_invariant s h
  | remoteUpdate data => exact onSnapshot_invariant s data h
  | clearCanvas => exact handleClearCanvas_invariant s h
  | resubscribe => exact h

theorem runHistoryOps_invariant (ops : List HistoryOp) (s : State) (h : historyInvariant s) :
    historyInvariant (runHistoryOps s ops) := by
  induction ops generalizing s with
  | nil => exact h
  | cons op ops ih => exact ih (applyHistoryOp s op) (applyHistoryOp_invariant s op h)

/-- C8: from a history of the single entry `[]` at index 0, after any sequence
of commits, undos, redos, remote updates and clear-canvas operations, with
renewals of the subscription anywhere in between, the history is not empty and
the index is below its length, so the entry at the index exists. -/
theorem history_index_in_range (s0 : State) (h1 : s0.history = [[]]) (h2 : s0.historyIndex = 0)
    (ops : List HistoryOp) :
    (runHistoryOps s0 ops).history ≠ [] ∧
    (runHistoryOps s0 ops).historyIndex < (runHistoryOps s0 ops).history.length ∧
    ∃ d, (runHistoryOps s0 ops).history[(runHistoryOps s0 ops).historyIndex]? = some d := by
  have h0 : historyInvariant s0 := by
    constructor
    · rw [h1]; simp
    · rw [h1, h2]; decide
  have hinv := runHistoryOps_invariant ops s0 h0
  exact ⟨hinv.1, hinv.2, _, List.getElem?_eq_getElem hinv.2⟩

/-- Witness of C8 on a run that commits a line, receives a remote circle and
clears: the history is then the circle document followed by the empty one, at
index 1. -/
theorem history_index_in_range_witness :
    ({ initialState with isHost := true } : State).history = [[]] ∧
    ({ initialState with isHost := true } : State).historyIndex = 0 ∧
    (runHistoryOps { initialState with isHost := true }
      [.commit [.line "a" 0 0 1 1 "#00aaff" (some 5)],
       .remoteUpdate ⟨.draw, true, [.circle "b" 0 0 1 "#00aaff" (some 5)]⟩,
       .clearCanvas]).history = [[.circle "b" 0 0 1 "#00aaff" (some 5)], []] ∧
    (runHistoryOps { initialState with isHost := true }
      [.commit [.line "a" 0 0 1 1 "#00aaff" (some 5)],
       .remoteUpdate ⟨.draw, true, [.circle "b" 0 0 1 "#00aaff" (some 5)]⟩,
       .clearCanvas]).history ≠ [] :=
  ⟨rfl, rfl, by
    simp [runHistoryOps, applyHistoryOp, initialState, updateHistory,
      updateFirestoreWithHistory, onSnapshot, handleClearCanvas],
   (history_index_in_range { initialState with isHost := true } rfl rfl
      [.commit [.line "a" 0 0 1 1 "#00aaff" (some 5)],
       .remoteUpdate ⟨.draw, true, [.circle "b" 0 0 1 "#00aaff" (some 5)]⟩,
       .clearCanvas]).1⟩

/-! ## Replication channel -/

theorem onSnapshot_of_ne (s : State) (data : SessionSnapshot)
    (h : data.serverElements ≠ s.subscribedElements) :
    onSnapshot s data =
      { s with userPermission := data.userPermission
               isHost := data.isHost
               elements := data.serverElements
               history := data.serverElements :: s.subscribedHistory.drop 1
               historyIndex := 0 } := by
  simp [onSnapshot, h]

theorem onSnapshot_of_eq (s : State) (data : SessionSnapshot)
    (h : data.serverElements = s.subscribedElements) :
    onSnapshot s data =
      { s with userPermission := data.userPermission, isHost := data.isHost } := by
  simp [onSnapshot, h]

/-- The state a click with the pen at (0,0) leaves on the freshly mounted
component: the one-point path `1u` is the document, committed and published. -/
theorem pen_click_state :
    handleMouseUp (handleMouseDown (fun v => v) "1u" initialState ⟨0, 0, 0, 0⟩) =
      { initialState with
        elements := [.path "1u" [⟨0, 0⟩] "#00aaff" (some 5)]
        history := [[], [.path "1u" [⟨0, 0⟩] "#00aaff" (some 5)]]
        historyIndex := 1
        selectedElements := ["1u"]
        published := some [.path "1u" [⟨0, 0⟩] "#00aaff" (some 5)] } := by
  have hd : handleMouseDown (fun v => v) "1u" initialState ⟨0, 0, 0, 0⟩ =
      { initialState with
        action := Action.drawing
        elements := [.path "1u" [⟨0, 0⟩] "#00aaff" (some 5)]
        selectedElements := ["1u"] } := by
    simp [handleMouseDown, initialState, createElement, getTransformedCoords, Element.id]
  rw [hd]
  simp [handleMouseUp, initialState, updateHistory, updateFirestoreWithHistory]

/-- The state a click with the line tool at (0,0) leaves on the freshly mounted
component: the line `a` is the document and stays selected. -/
theorem line_click_state :
    handleMouseUp
        (handleMouseDown (fun v => v) "a" ({ tool := Tool.line } : State) ⟨0, 0, 0, 0⟩) =
      ({ tool := Tool.line
         elements := [.line "a" 0 0 0 0 "#00aaff" (some 5)]
         history := [[], [.line "a" 0 0 0 0 "#00aaff" (some 5)]]
         historyIndex := 1
         selectedElements := ["a"]
         published := some [.line "a" 0 0 0 0 "#00aaff" (some 5)] } : State) := by
  have hd : handleMouseDown (fun v => v) "a" ({ tool := Tool.line } : State) ⟨0, 0, 0, 0⟩ =
      ({ tool := Tool.line
         action := Action.drawing
         elements := [.line "a" 0 0 0 0 "#00aaff" (some 5)]
         selectedElements := ["a"] } : State) := by
    simp [handleMouseDown, createElement, getTransformedCoords, Element.id]
  rw [hd]
  simp [handleMouseUp, updateHistory, updateFirestoreWithHistory]

/-- C9, as the specification words it, fails: a click with the line tool commits
the line `a`, `App` renders again (so the subscription is renewed on the
two-entry history), and a remote update with a different document then leaves
two history entries, the second being the local commit, which redo brings
back. -/
theorem onSnapshot_reset_counterexample :
    (⟨.draw, false, [.circle "b" 0 0 1 "#00aaff" (some 5)]⟩ : SessionSnapshot).serverElements ≠
      (resubscribe (handleMouseUp (handleMouseDown (fun v => v) "a"
        ({ tool := Tool.line } : State) ⟨0, 0, 0, 0⟩))).elements ∧
    (onSnapshot
        (resubscribe (handleMouseUp (handleMouseDown (fun v => v) "a"
          ({ tool := Tool.line } : State) ⟨0, 0, 0, 0⟩)))
        ⟨.draw, false, [.circle "b" 0 0 1 "#00aaff" (some 5)]⟩).history =
      [[.circle "b" 0 0 1 "#00aaff" (some 5)], [.line "a" 0 0 0 0 "#00aaff" (some 5)]] ∧
    (onSnapshot
        (resubscribe (handleMouseUp (handleMouseDown (fun v => v) "a"
          ({ tool := Tool.line } : State) ⟨0, 0, 0, 0⟩)))
        ⟨.draw, false, [.circle "b" 0 0 1 "#00aaff" (some 5)]⟩).history ≠
      [[.circle "b" 0 0 1 "#00aaff" (some 5)]] ∧
    (handleRedo (onSnapshot
        (resubscribe (handleMouseUp (handleMouseDown (fun v => v) "a"
          ({ tool := Tool.line } : State) ⟨0, 0, 0, 0⟩)))
        ⟨.draw, false, [.circle "b" 0 0 1 "#00aaff" (some 5)]⟩)).historyIndex = 1 ∧
    (handleRedo (onSnapshot
        (resubscribe (handleMouseUp (handleMouseDown (fun v => v) "a"
          ({ tool := Tool.line } : State) ⟨0, 0, 0, 0⟩)))
        ⟨.draw, false, [.circle "b" 0 0 1 "#00aaff" (some 5)]⟩)).elements =
      [.line "a" 0 0 0 0 "#00aaff" (some 5)] := by
  rw [line_click_state]
  have hs : resubscribe
      ({ tool := Tool.line
         elements := [.line "a" 0 0 0 0 "#00aaff" (some 5)]
         history := [[], [.line "a" 0 0 0 0 "#00aaff" (some 5)]]
         historyIndex := 1
         selectedElements := ["a"]
         published := some [.line "a" 0 0 0 0 "#00aaff" (some 5)] } : State) =
      ({ tool := Tool.line
         elements := [.line "a" 0 0 0 0 "#00aaff" (some 5)]
         history := [[], [.line "a" 0 0 0 0 "#00aaff" (some 5)]]
         historyIndex := 1
         selectedElements := ["a"]
         published := some [.line "a" 0 0 0 0 "#00aaff" (some 5)]
         subscribedElements := [.line "a" 0 0 0 0 "#00aaff" (some 5)]
         subscribedHistory := [[], [.line "a" 0 0 0 0 "#00aaff" (some 5)]] } : State) := rfl
  rw [hs, onSnapshot_of_ne _ _ (by simp)]
  refine ⟨by simp, by simp, by simp, ?_, ?_⟩
  · rw [handleRedo_lt _ (by simp)]
  · rw [handleRedo_lt _ (by simp)]
    simp

/-- C9, amended: a remote document `d` that differs from the current document
and from the document the subscription holds (the one the callback compares
with) becomes the document; the index becomes 0; the history becomes `d`
followed by the entries after the first of the history the subscription holds.
That is the one-entry stack of `d`, after which redo changes nothing, when that
history has at most one entry, as from mount until the subscription is
renewed; when it has two or more, the entries after the first survive and redo
afterwards moves to index 1. -/
theorem onSnapshot_replaces_base (s : State) (data : SessionSnapshot)
    (_hcur : data.serverElements ≠ s.elements)
    (hsub : data.serverElements ≠ s.subscribedElements) :
    (onSnapshot s data).elements = data.serverElements ∧
    (onSnapshot s data).historyIndex = 0 ∧
    (onSnapshot s data).history = data.serverElements :: s.subscribedHistory.drop 1 ∧
    (s.subscribedHistory.length ≤ 1 →
      (onSnapshot s data).history = [data.serverElements] ∧
      handleRedo (onSnapshot s data) = onSnapshot s data) ∧
    (2 ≤ s.subscribedHistory.length →
      (onSnapshot s data).history.length = s.subscribedHistory.length ∧
      (handleRedo (onSnapshot s data)).historyIndex = 1 ∧
      s.subscribedHistory[1]? = some (handleRedo (onSnapshot s data)).elements) := by
  rw [onSnapshot_of_ne s data hsub]
  refine ⟨rfl, rfl, rfl, ?_, ?_⟩
  · intro hlen
    have hd : s.subscribedHistory.drop 1 = [] := List.drop_eq_nil_of_le hlen
    refine ⟨by simp [hd], ?_⟩
    apply handleRedo_last
    simp [hd]
  · intro hlen
    have hl : (data.serverElements :: s.subscribedHistory.drop 1).length =
        s.subscribedHistory.length := by
      rw [List.length_cons, List.length_drop]
      omega
    refine ⟨hl, ?_, ?_⟩
    · rw [handleRedo_lt _ (by
        show 0 < (data.serverElements :: s.subscribedHistory.drop 1).length - 1
        rw [hl]; omega)]
    · rw [handleRedo_lt _ (by
        show 0 < (data.serverElements :: s.subscribedHistory.drop 1).length - 1
        rw [hl]; omega)]
      show s.subscribedHistory[1]? =
        some (((data.serverElements :: s.subscribedHistory.drop 1)[0 + 1]?).getD [])
      have h1 : (data.serverElements :: s.subscribedHistory.drop 1)[0 + 1]? =
          s.subscribedHistory[1]? := by
        simp [List.getElem?_drop]
      rw [h1]
      exact getD_getElem?_of_lt s.subscribedHistory 1 (by omega)

/-- Witness of the amended C9: after a click with the line tool, with the
subscription made at mount, a remote circle leaves the one-entry history of the
circle document. -/
theorem onSnapshot_replaces_base_witness :
    (⟨.draw, false, [.circle "b" 0 0 1 "#00aaff" (some 5)]⟩ : SessionSnapshot).serverElements ≠
      (handleMouseUp (handleMouseDown (fun v => v) "a"
        ({ tool := Tool.line } : State) ⟨0, 0, 0, 0⟩)).elements ∧
    (⟨.draw, false, [.circle "b" 0 0 1 "#00aaff" (some 5)]⟩ : SessionSnapshot).serverElements ≠
      (handleMouseUp (handleMouseDown (fun v => v) "a"
        ({ tool := Tool.line } : State) ⟨0, 0, 0, 0⟩)).subscribedElements ∧
    (onSnapshot
        (handleMouseUp (handleMouseDown (fun v => v) "a"
          ({ tool := Tool.line } : State) ⟨0, 0, 0, 0⟩))
        ⟨.draw, false, [.circle "b" 0 0 1 "#00aaff" (some 5)]⟩).history =
      [[.circle "b" 0 0 1 "#00aaff" (some 5)]] := by
  have h1 : (⟨.draw, false, [.circle "b" 0 0 1 "#00aaff" (some 5)]⟩ :
      SessionSnapshot).serverElements ≠
      (handleMouseUp (handleMouseDown (fun v => v) "a"
        ({ tool := Tool.line } : State) ⟨0, 0, 0, 0⟩)).elements := by
    rw [line_click_state]
    simp
  have h2 : (⟨.draw, false, [.circle "b" 0 0 1 "#00aaff" (some 5)]⟩ :
      SessionSnapshot).serverElements ≠
      (handleMouseUp (handleMouseDown (fun v => v) "a"
        ({ tool := Tool.line } : State) ⟨0, 0, 0, 0⟩)).subscribedElements := by
    rw [line_click_state]
    simp
  have h3 : (handleMouseUp (handleMouseDown (fun v => v) "a"
      ({ tool := Tool.line } : State) ⟨0, 0, 0, 0⟩)).subscribedHistory.length ≤ 1 := by
    rw [line_click_state]
    simp
  exact ⟨h1, h2, ((onSnapshot_replaces_base _ _ h1 h2).2.2.2.1 h3).1⟩

/-- C10 at its failing input.  A click with the pen commits and publishes the
path `1u`; the session record then delivers that same document back.  The
callback compares it with the document of the render that subscribed, the empty
one, takes it as new and rebuilds the history: the two entries at index 1
become the single entry at index 0 and undo is no longer possible.  Only a
document equal to the subscribed one is passed over. -/
theorem onSnapshot_echo_resets_history :
    (handleMouseUp (handleMouseDown (fun v => v) "1u" initialState ⟨0, 0, 0, 0⟩)).elements =
      [.path "1u" [⟨0, 0⟩] "#00aaff" (some 5)] ∧
    (handleMouseUp (handleMouseDown (fun v => v) "1u" initialState ⟨0, 0, 0, 0⟩)).history =
      [[], [.path "1u" [⟨0, 0⟩] "#00aaff" (some 5)]] ∧
    (handleMouseUp (handleMouseDown (fun v => v) "1u" initialState ⟨0, 0, 0, 0⟩)).historyIndex =
      1 ∧
    (handleMouseUp (handleMouseDown (fun v => v) "1u" initialState ⟨0, 0, 0, 0⟩)).published =
      some [.path "1u" [⟨0, 0⟩] "#00aaff" (some 5)] ∧
    (onSnapshot (handleMouseUp (handleMouseDown (fun v => v) "1u" initialState ⟨0, 0, 0, 0⟩))
        ⟨.draw, false, [.path "1u" [⟨0, 0⟩] "#00aaff" (some 5)]⟩).history =
      [[.path "1u" [⟨0, 0⟩] "#00aaff" (some 5)]] ∧
    (onSnapshot (handleMouseUp (handleMouseDown (fun v => v) "1u" initialState ⟨0, 0, 0, 0⟩))
        ⟨.draw, false, [.path "1u" [⟨0, 0⟩] "#00aaff" (some 5)]⟩).historyIndex = 0 ∧
    handleUndo
        (onSnapshot (handleMouseUp (handleMouseDown (fun v => v) "1u" initialState ⟨0, 0, 0, 0⟩))
          ⟨.draw, false, [.path "1u" [⟨0, 0⟩] "#00aaff" (some 5)]⟩) =
      onSnapshot (handleMouseUp (handleMouseDown (fun v => v) "1u" initialState ⟨0, 0, 0, 0⟩))
        ⟨.draw, false, [.path "1u" [⟨0, 0⟩] "#00aaff" (some 5)]⟩ ∧
    (∀ (s : State) (data : SessionSnapshot), data.serverElements = s.subscribedElements →
      (onSnapshot s data).elements = s.elements ∧
      (onSnapshot s data).history = s.history ∧
      (onSnapshot s data).historyIndex = s.historyIndex ∧
      (onSnapshot s data).selectedElements = s.selectedElements) := by
  rw [pen_click_state]
  have hne : (⟨.draw, false, [.path "1u" [⟨0, 0⟩] "#00aaff" (some 5)]⟩ :
      SessionSnapshot).serverElements ≠
      ({ initialState with
        elements := [.path "1u" [⟨0, 0⟩] "#00aaff" (some 5)]
        history := [[], [.path "1u" [⟨0, 0⟩] "#00aaff" (some 5)]]
        historyIndex := 1
        selectedElements := ["1u"]
        published := some [.path "1u" [⟨0, 0⟩] "#00aaff" (some 5)] } :
        State).subscribedElements := by
    simp [initialState]
  rw [onSnapshot_of_ne _ _ hne]
  refine ⟨rfl, rfl, rfl, rfl, by simp [initialState], rfl, handleUndo_zero _ rfl, ?_⟩
  intro s data h
  rw [onSnapshot_of_eq s data h]
  exact ⟨rfl, rfl, rfl, rfl⟩

/-! ## Malformed session data -/

/-- C11, as the specification words it, fails: on a `drawingData` string that
does not parse the callback throws, where on the serialized empty document it
returns. -/
theorem onSnapshotRecord_parse_failure_counterexample :
    (fun str => if str = "[]" then some [] else none : String → Option Document) "oops" = none ∧
    onSnapshotRecord (fun str => if str = "[]" then some [] else none)
        (handleMouseUp (handleMouseDown (fun v => v) "1u" initialState ⟨0, 0, 0, 0⟩))
        ⟨.draw, false, some "oops"⟩ =
      Outcome.threw
        (handleMouseUp (handleMouseDown (fun v => v) "1u" initialState ⟨0, 0, 0, 0⟩)) ∧
    onSnapshotRecord (fun str => if str = "[]" then some [] else none)
        (handleMouseUp (handleMouseDown (fun v => v) "1u" initialState ⟨0, 0, 0, 0⟩))
        ⟨.draw, false, some "[]"⟩ =
      Outcome.returned
        (handleMouseUp (handleMouseDown (fun v => v) "1u" initialState ⟨0, 0, 0, 0⟩)) ∧
    onSnapshotRecord (fun str => if str = "[]" then some [] else none)
        (handleMouseUp (handleMouseDown (fun v => v) "1u" initialState ⟨0, 0, 0, 0⟩))
        ⟨.draw, false, some "oops"⟩ ≠
      onSnapshotRecord (fun str => if str = "[]" then some [] else none)
        (handleMouseUp (handleMouseDown (fun v => v) "1u" initialState ⟨0, 0, 0, 0⟩))
        ⟨.draw, false, some "[]"⟩ := by
  rw [pen_click_state]
  have h1 : onSnapshotRecord (fun str => if str = "[]" then some [] else none)
      ({ initialState with
        elements := [.path "1u" [⟨0, 0⟩] "#00aaff" (some 5)]
        history := [[], [.path "1u" [⟨0, 0⟩] "#00aaff" (some 5)]]
        historyIndex := 1
        selectedElements := ["1u"]
        published := some [.path "1u" [⟨0, 0⟩] "#00aaff" (some 5)] } : State)
      ⟨.draw, false, some "oops"⟩ =
      Outcome.threw
        ({ initialState with
          elements := [.path "1u" [⟨0, 0⟩] "#00aaff" (some 5)]
          history := [[], [.path "1u" [⟨0, 0⟩] "#00aaff" (some 5)]]
          historyIndex := 1
          selectedElements := ["1u"]
          published := some [.path "1u" [⟨0, 0⟩] "#00aaff" (some 5)] } : State) := by
    simp only [onSnapshotRecord]
    rfl
  have h2 : onSnapshotRecord (fun str => if str = "[]" then some [] else none)
      ({ initialState with
        elements := [.path "1u" [⟨0, 0⟩] "#00aaff" (some 5)]
        history := [[], [.path "1u" [⟨0, 0⟩] "#00aaff" (some 5)]]
        historyIndex := 1
        selectedElements := ["1u"]
        published := some [.path "1u" [⟨0, 0⟩] "#00aaff" (some 5)] } : State)
      ⟨.draw, false, some "[]"⟩ =
      Outcome.returned
        ({ initialState with
          elements := [.path "1u" [⟨0, 0⟩] "#00aaff" (some 5)]
          history := [[], [.path "1u" [⟨0, 0⟩] "#00aaff" (some 5)]]
          historyIndex := 1
          selectedElements := ["1u"]
          published := some [.path "1u" [⟨0, 0⟩] "#00aaff" (some 5)] } : State) := by
    simp only [onSnapshotRecord]
    rfl
  refine ⟨by decide, h1, h2, ?_⟩
  rw [h1, h2]
  intro h
  cases h

/-- C11, amended: when `drawingData` is absent or the empty string the callback
behaves as on the empty document; on any other string that does not parse it
throws, having stored the session data only, and the document, the history,
its index and the selection are what they were. -/
theorem onSnapshotRecord_parse (jsonParse : String → Option Document) (s : State)
    (permission : Permission) (isHost : Bool) (hempty : jsonParse "[]" = some []) :
    onSnapshotRecord jsonParse s ⟨permission, isHost, none⟩ =
      Outcome.returned (onSnapshot s ⟨permission, isHost, []⟩) ∧
    onSnapshotRecord jsonParse s ⟨permission, isHost, some ""⟩ =
      Outcome.returned (onSnapshot s ⟨permission, isHost, []⟩) ∧
    (∀ str : String, str ≠ "" → jsonParse str = none →
      ∃ t, onSnapshotRecord jsonParse s ⟨permission, isHost, some str⟩ = Outcome.threw t ∧
        t.elements = s.elements ∧ t.history = s.history ∧
        t.historyIndex = s.historyIndex ∧ t.selectedElements = s.selectedElements) := by
  refine ⟨?_, ?_, ?_⟩
  · simp only [onSnapshotRecord, hempty]
  · simp only [onSnapshotRecord, if_true, hempty]
  · intro str hne hfail
    refine ⟨{ s with userPermission := permission, isHost := isHost }, ?_, rfl, rfl, rfl, rfl⟩
    simp only [onSnapshotRecord, if_neg hne, hfail]

/-- Witness of the amended C11 with a stand-in for `JSON.parse` that knows the
empty array only. -/
theorem onSnapshotRecord_parse_witness :
    (fun str => if str = "[]" then some [] else none : String → Option Document) "[]" = some [] ∧
    onSnapshotRecord (fun str => if str = "[]" then some [] else none) initialState
        ⟨.watch, false, none⟩ =
      Outcome.returned (onSnapshot initialState ⟨.watch, false, []⟩) :=
  ⟨by decide,
   (onSnapshotRecord_parse (fun str => if str = "[]" then some [] else none) initialState
      .watch false (by decide)).1⟩

/-! ## The permission gate -/

theorem handleMouseDown_of_not_draw (sqrt : ℚ → ℚ) (id : String) (s : State) (e : MouseInput)
    (h : s.userPermission ≠ Permission.draw) : handleMouseDown sqrt id s e = s := by
  simp [handleMouseDown, h]

theorem handleMouseDown_of_text_visible (sqrt : ℚ → ℚ) (id : String) (s : State)
    (e : MouseInput) (h : s.textInput.visible = true) : handleMouseDown sqrt id s e = s := by
  simp [handleMouseDown, h]

theorem handleMouseMove_of_not_draw (sqrt : ℚ → ℚ) (s : State) (e : MouseInput)
    (h : s.userPermission ≠ Permission.draw) : handleMouseMove sqrt s e = s := by
  simp [handleMouseMove, h]

/-- C12 at its failing input.  Pointer-down and pointer-move leave the state as
it is without the draw permission, and pointer-down does so while the text box
is open; pointer-up has no such gate: a pen stroke is begun, the session record
then arrives with permission `watch` (its empty document is the one the
subscription holds, so the stroke stays), and the pointer-up that follows still
commits and publishes the stroke. -/
theorem handleMouseUp_not_gated :
    (∀ (sqrt : ℚ → ℚ) (id : String) (s : State) (e : MouseInput),
      s.userPermission ≠ Permission.draw → handleMouseDown sqrt id s e = s) ∧
    (∀ (sqrt : ℚ → ℚ) (s : State) (e : MouseInput),
      s.userPermission ≠ Permission.draw → handleMouseMove sqrt s e = s) ∧
    (∀ (sqrt : ℚ → ℚ) (id : String) (s : State) (e : MouseInput),
      s.textInput.visible = true → handleMouseDown sqrt id s e = s) ∧
    (onSnapshot (handleMouseDown (fun v => v) "1u" initialState ⟨0, 0, 0, 0⟩)
        ⟨.watch, false, []⟩).userPermission = Permission.watch ∧
    (onSnapshot (handleMouseDown (fun v => v) "1u" initialState ⟨0, 0, 0, 0⟩)
        ⟨.watch, false, []⟩).action = Action.drawing ∧
    (onSnapshot (handleMouseDown (fun v => v) "1u" initialState ⟨0, 0, 0, 0⟩)
        ⟨.watch, false, []⟩).elements = [.path "1u" [⟨0, 0⟩] "#00aaff" (some 5)] ∧
    (onSnapshot (handleMouseDown (fun v => v) "1u" initialState ⟨0, 0, 0, 0⟩)
        ⟨.watch, false, []⟩).history = [[]] ∧
    (onSnapshot (handleMouseDown (fun v => v) "1u" initialState ⟨0, 0, 0, 0⟩)
        ⟨.watch, false, []⟩).published = none ∧
    (handleMouseUp (onSnapshot (handleMouseDown (fun v => v) "1u" initialState ⟨0, 0, 0, 0⟩)
        ⟨.watch, false, []⟩)).history = [[], [.path "1u" [⟨0, 0⟩] "#00aaff" (some 5)]] ∧
    (handleMouseUp (onSnapshot (handleMouseDown (fun v => v) "1u" initialState ⟨0, 0, 0, 0⟩)
        ⟨.watch, false, []⟩)).historyIndex = 1 ∧
    (handleMouseUp (onSnapshot (handleMouseDown (fun v => v) "1u" initialState ⟨0, 0, 0, 0⟩)
        ⟨.watch, false, []⟩)).published = some [.path "1u" [⟨0, 0⟩] "#00aaff" (some 5)] ∧
    (handleMouseUp (onSnapshot (handleMouseDown (fun v => v) "1u" initialState ⟨0, 0, 0, 0⟩)
        ⟨.watch, false, []⟩)).action = Action.none := by
  have hd : handleMouseDown (fun v => v) "1u" initialState ⟨0, 0, 0, 0⟩ =
      { initialState with
        action := Action.drawing
        elements := [.path "1u" [⟨0, 0⟩] "#00aaff" (some 5)]
        selectedElements := ["1u"] } := by
    simp [handleMouseDown, initialState, createElement, getTransformedCoords, Element.id]
  have hs : onSnapshot (handleMouseDown (fun v => v) "1u" initialState ⟨0, 0, 0, 0⟩)
      ⟨.watch, false, []⟩ =
      { initialState with
        action := Action.drawing
        elements := [.path "1u" [⟨0, 0⟩] "#00aaff" (some 5)]
        selectedElements := ["1u"]
        userPermission := Permission.watch } := by
    rw [hd, onSnapshot_of_eq _ _ (by simp [initialState])]
    rfl
  refine ⟨handleMouseDown_of_not_draw, handleMouseMove_of_not_draw,
    handleMouseDown_of_text_visible, ?_⟩
  rw [hs]
  simp [handleMouseUp, initialState, updateHistory, updateFirestoreWithHistory]

/-! ## Selection after a remote update -/

/-- C13, as the specification words it, fails: after a click with the line tool
the line `a` is selected; a remote update then replaces the document by one
circle `b`, and `a` is still in the selection. -/
theorem onSnapshot_selection_counterexample :
    (onSnapshot
        (handleMouseUp
          (handleMouseDown (fun v => v) "a" ({ tool := Tool.line } : State) ⟨0, 0, 0, 0⟩))
        ⟨.draw, false, [.circle "b" 0 0 1 "#00aaff" (some 5)]⟩).elements =
      [.circle "b" 0 0 1 "#00aaff" (some 5)] ∧
    "a" ∈ (onSnapshot
        (handleMouseUp
          (handleMouseDown (fun v => v) "a" ({ tool := Tool.line } : State) ⟨0, 0, 0, 0⟩))
        ⟨.draw, false, [.circle "b" 0 0 1 "#00aaff" (some 5)]⟩).selectedElements ∧
    ¬ ∀ id ∈ (onSnapshot
        (handleMouseUp
          (handleMouseDown (fun v => v) "a" ({ tool := Tool.line } : State) ⟨0, 0, 0, 0⟩))
        ⟨.draw, false, [.circle "b" 0 0 1 "#00aaff" (some 5)]⟩).selectedElements,
      id ∈ (onSnapshot
        (handleMouseUp
          (handleMouseDown (fun v => v) "a" ({ tool := Tool.line } : State) ⟨0, 0, 0, 0⟩))
        ⟨.draw, false, [.circle "b" 0 0 1 "#00aaff" (some 5)]⟩).elements.map Element.id := by
  rw [line_click_state, onSnapshot_of_ne _ _ (by simp)]
  simp [Element.id]

/-- C13, amended: a remote update, whether or not it replaces the document,
leaves the selection exactly as it was; a selected id that names no element of
the new document stays selected. -/
theorem onSnapshot_selection_kept (s : State) (data : SessionSnapshot) :
    (onSnapshot s data).selectedElements = s.selectedElements := by
  by_cases h : data.serverElements = s.subscribedElements
  · rw [onSnapshot_of_eq s data h]
  · rw [onSnapshot_of_ne s data h]

/-! ## Moving a selection -/

/-- C14 at its failing input.  After a marquee has selected the rectangles `a`
and `b`, pressing on `a` with the select tool makes `a` the only selected
element, and the drag by (10,20) translates `a` only: `b` is where it was. -/
theorem multi_selection_drag_moves_one :
    scenarioAfterMarquee.selectedElements = ["a", "b"] ∧
    scenarioAfterMarquee.action = Action.none ∧
    scenarioAfterMarquee.elements = scenarioDocument ∧
    scenarioAfterDrag.action = Action.moving ∧
    scenarioAfterDrag.selectedElements = ["a"] ∧
    scenarioAfterDrag.elements =
      [.rectangle "a" 10 20 10 10 "#00aaff" (some 5),
       .rectangle "b" 100 100 10 10 "#00aaff" (some 5)] := by
  have h1 : handleMouseDown (fun v => v) "1u" scenarioStart ⟨-50, -50, 0, 0⟩ =
      { scenarioStart with
        action := Action.selecting
        startPoint := some { x := -50, y := -50 }
        selectedElements := [] } := by
    norm_num [handleMouseDown, scenarioStart, getTransformedCoords, getElementAtPosition,
      getElementAtPositionFrom, scenarioDocument, getElementBounds, isPointInsideBounds,
      padding, Element.lineWidth]
  have h2 : handleMouseMove (fun v => v)
      { scenarioStart with
        action := Action.selecting
        startPoint := some { x := -50, y := -50 }
        selectedElements := [] } ⟨200, 200, 0, 0⟩ =
      { scenarioStart with
        action := Action.selecting
        startPoint := some { x := -50, y := -50 }
        selectedElements := []
        selectionRect := some { x := -50, y := -50, width := 250, height := 250 } } := by
    norm_num [handleMouseMove, scenarioStart, getTransformedCoords]
    rfl
  have h3 : handleMouseUp
      { scenarioStart with
        action := Action.selecting
        startPoint := some { x := -50, y := -50 }
        selectedElements := []
        selectionRect := some { x := -50, y := -50, width := 250, height := 250 } } =
      { scenarioStart with selectedElements := ["a", "b"] } := by
    norm_num [handleMouseUp, scenarioStart, scenarioDocument, getElementBounds,
      doBoundsIntersect, Element.id]
  have hm : scenarioAfterMarquee = { scenarioStart with selectedElements := ["a", "b"] } := by
    simp only [scenarioAfterMarquee, runEvents, List.foldl, applyEvent]
    rw [h1, h2, h3]
  have h4 : handleMouseDown (fun v => v) "2u"
      { scenarioStart with selectedElements := ["a", "b"] } ⟨5, 5, 0, 0⟩ =
      { scenarioStart with
        selectedElements := ["a"]
        action := Action.moving
        startPoint := some
          { x := 5, y := 5
            originalElements := some [.rectangle "a" 0 0 10 10 "#00aaff" (some 5)] } } := by
    norm_num [handleMouseDown, scenarioStart, getTransformedCoords, getElementAtPosition,
      getElementAtPositionFrom, scenarioDocument, getElementBounds, isPointInsideBounds,
      padding, Element.lineWidth, Element.id]
    decide
  have h5 : handleMouseMove (fun v => v)
      { scenarioStart with
        selectedElements := ["a"]
        action := Action.moving
        startPoint := some
          { x := 5, y := 5
            originalElements := some [.rectangle "a" 0 0 10 10 "#00aaff" (some 5)] } }
      ⟨7, 9, 0, 0⟩ =
      { scenarioStart with
        elements := [.rectangle "a" 2 4 10 10 "#00aaff" (some 5),
          .rectangle "b" 100 100 10 10 "#00aaff" (some 5)]
        selectedElements := ["a"]
        action := Action.moving
        startPoint := some
          { x := 5, y := 5
            originalElements := some [.rectangle "a" 0 0 10 10 "#00aaff" (some 5)] } } := by
    norm_num [handleMouseMove, scenarioStart, getTransformedCoords, scenarioDocument,
      moveSelected, moveElement, Element.id]
    rfl
  have h6 : handleMouseMove (fun v => v)
      { scenarioStart with
        elements := [.rectangle "a" 2 4 10 10 "#00aaff" (some 5),
          .rectangle "b" 100 100 10 10 "#00aaff" (some 5)]
        selectedElements := ["a"]
        action := Action.moving
        startPoint := some
          { x := 5, y := 5
            originalElements := some [.rectangle "a" 0 0 10 10 "#00aaff" (some 5)] } }
      ⟨15, 25, 0, 0⟩ =
      { scenarioStart with
        elements := [.rectangle "a" 10 20 10 10 "#00aaff" (some 5),
          .rectangle "b" 100 100 10 10 "#00aaff" (some 5)]
        selectedElements := ["a"]
        action := Action.moving
        startPoint := some
          { x := 5, y := 5
            originalElements := some [.rectangle "a" 0 0 10 10 "#00aaff" (some 5)] } } := by
    norm_num [handleMouseMove, scenarioStart, getTransformedCoords, scenarioDocument,
      moveSelected, moveElement, Element.id]
    rfl
  have hd : scenarioAfterDrag =
      { scenarioStart with
        elements := [.rectangle "a" 10 20 10 10 "#00aaff" (some 5),
          .rectangle "b" 100 100 10 10 "#00aaff" (some 5)]
        selectedElements := ["a"]
        action := Action.moving
        startPoint := some
          { x := 5, y := 5
            originalElements := some [.rectangle "a" 0 0 10 10 "#00aaff" (some 5)] } } := by
    simp only [scenarioAfterDrag, runEvents, List.foldl, applyEvent]
    rw [hm, h4, h5, h6]
  rw [hm, hd]
  exact ⟨rfl, rfl, rfl, rfl, rfl, rfl⟩

/-! ## Viewport -/

theorem handleWheel_scale (s : State) (e : WheelInput) :
    (handleWheel s e).viewTransform.scale =
      min (max (if e.deltaY < 0 then s.viewTransform.scale * (11 / 10)
                else s.viewTransform.scale / (11 / 10)) (1 / 10)) 20 := rfl

theorem handleWheel_scale_range (s : State) (e : WheelInput) :
    1 / 10 ≤ (handleWheel s e).viewTransform.scale ∧
      (handleWheel s e).viewTransform.scale ≤ 20 := by
  rw [handleWheel_scale]
  exact ⟨le_min (le_max_right _ _) (by norm_num), min_le_right _ _⟩

/-- C15: for a view transform with positive scale, any anchor and either wheel
direction, the new scale is the old one times or divided by 1.1, clamped to
[0.1, 20], and the world point under the anchor is the same after the zoom as
before it. -/
theorem handleWheel_anchor_fixed (s : State) (e : WheelInput)
    (_hscale : 0 < s.viewTransform.scale) :
    (handleWheel s e).viewTransform.scale =
      min (max (if e.deltaY < 0 then s.viewTransform.scale * (11 / 10)
                else s.viewTransform.scale / (11 / 10)) (1 / 10)) 20 ∧
    ((e.clientX - e.rectLeft) - (handleWheel s e).viewTransform.offsetX) /
        (handleWheel s e).viewTransform.scale =
      ((e.clientX - e.rectLeft) - s.viewTransform.offsetX) / s.viewTransform.scale ∧
    ((e.clientY - e.rectTop) - (handleWheel s e).viewTransform.offsetY) /
        (handleWheel s e).viewTransform.scale =
      ((e.clientY - e.rectTop) - s.viewTransform.offsetY) / s.viewTransform.scale ∧
    getTransformedCoords (handleWheel s e) ⟨e.clientX, e.clientY, e.rectLeft, e.rectTop⟩ =
      getTransformedCoords s ⟨e.clientX, e.clientY, e.rectLeft, e.rectTop⟩ := by
  have hpos : 0 < (handleWheel s e).viewTransform.scale :=
    lt_of_lt_of_le (by norm_num) (handleWheel_scale_range s e).1
  have hne : (handleWheel s e).viewTransform.scale ≠ 0 := ne_of_gt hpos
  have hx : (handleWheel s e).viewTransform.offsetX =
      (e.clientX - e.rectLeft) -
        ((e.clientX - e.rectLeft) - s.viewTransform.offsetX) / s.viewTransform.scale *
          (handleWheel s e).viewTransform.scale := rfl
  have hy : (handleWheel s e).viewTransform.offsetY =
      (e.clientY - e.rectTop) -
        ((e.clientY - e.rectTop) - s.viewTransform.offsetY) / s.viewTransform.scale *
          (handleWheel s e).viewTransform.scale := rfl
  have ex : ((e.clientX - e.rectLeft) - (handleWheel s e).viewTransform.offsetX) /
        (handleWheel s e).viewTransform.scale =
      ((e.clientX - e.rectLeft) - s.viewTransform.offsetX) / s.viewTransform.scale := by
    rw [hx, sub_sub_cancel, mul_div_assoc, div_self hne, mul_one]
  have ey : ((e.clientY - e.rectTop) - (handleWheel s e).viewTransform.offsetY) /
        (handleWheel s e).viewTransform.scale =
      ((e.clientY - e.rectTop) - s.viewTransform.offsetY) / s.viewTransform.scale := by
    rw [hy, sub_sub_cancel, mul_div_assoc, div_self hne, mul_one]
  refine ⟨rfl, ex, ey, ?_⟩
  simp only [getTransformedCoords]
  rw [ex, ey]

/-- Witness of C15: zooming in at the anchor (30,40) from scale 2 and offset (5,7). -/
theorem handleWheel_anchor_fixed_witness :
    0 < ({ viewTransform := { scale := 2, offsetX := 5, offsetY := 7 } } : State).viewTransform.scale ∧
    getTransformedCoords
        (handleWheel ({ viewTransform := { scale := 2, offsetX := 5, offsetY := 7 } } : State)
          ⟨30, 40, -1, 0, 0⟩) ⟨30, 40, 0, 0⟩ =
      getTransformedCoords ({ viewTransform := { scale := 2, offsetX := 5, offsetY := 7 } } : State)
        ⟨30, 40, 0, 0⟩ :=
  ⟨by norm_num,
   (handleWheel_anchor_fixed
      ({ viewTransform := { scale := 2, offsetX := 5, offsetY := 7 } } : State)
      ⟨30, 40, -1, 0, 0⟩ (by norm_num)).2.2.2⟩

theorem updateHistory_viewTransform (s : State) (d : Document) :
    (updateHistory s d).viewTransform = s.viewTransform := rfl

theorem handleMouseDown_viewTransform (sqrt : ℚ → ℚ) (id : String) (s : State)
    (e : MouseInput) : (handleMouseDown sqrt id s e).viewTransform = s.viewTransform := by
  unfold handleMouseDown
  repeat' (first | split | dsimp only)
  all_goals rfl

theorem handleMouseMove_scale (sqrt : ℚ → ℚ) (s : State) (e : MouseInput) :
    (handleMouseMove sqrt s e).viewTransform.scale = s.viewTransform.scale := by
  unfold handleMouseMove
  repeat' (first | split | dsimp only)

theorem handleMouseUp_viewTransform (s : State) :
    (handleMouseUp s).viewTransform = s.viewTransform := by
  unfold handleMouseUp
  repeat' (first | split | dsimp only)
  all_goals rfl

theorem handleTextBlur_viewTransform (trim : String → String) (s : State) :
    (handleTextBlur trim s).viewTransform = s.viewTransform := by
  unfold handleTextBlur
  repeat' (first | split | dsimp only)
  all_goals rfl

theorem handleUndo_viewTransform (s : State) :
    (handleUndo s).viewTransform = s.viewTransform := by
  unfold handleUndo
  split <;> rfl

theorem handleRedo_viewTransform (s : State) :
    (handleRedo s).viewTransform = s.viewTransform := by
  unfold handleRedo
  split <;> rfl

theorem handleClearCanvas_viewTransform (s : State) :
    (handleClearCanvas s).viewTransform = s.viewTransform := by
  unfold handleClearCanvas
  split <;> rfl

theorem onSnapshot_viewTransform (s : State) (data : SessionSnapshot) :
    (onSnapshot s data).viewTransform = s.viewTransform := by
  by_cases h : data.serverElements = s.subscribedElements
  · rw [onSnapshot_of_eq s data h]
  · rw [onSnapshot_of_ne s data h]

theorem handleKeyDown_viewTransform (s : State) (isSpace : Bool) :
    (handleKeyDown s isSpace).viewTransform = s.viewTransform := by
  unfold handleKeyDown
  split <;> rfl

theorem handleKeyUp_viewTransform (s : State) (isSpace : Bool) :
    (handleKeyUp s isSpace).viewTransform = s.viewTransform := by
  unfold handleKeyUp
  split <;> rfl

/-- Every event but the wheel leaves the scale as it is. -/
theorem applyEvent_scale_of_not_wheel (sqrt : ℚ → ℚ) (trim : String → String) (s : State)
    (ev : Event) (h : ∀ e, ev ≠ Event.wheel e) :
    (applyEvent sqrt trim s ev).viewTransform.scale = s.viewTransform.scale := by
  cases ev with
  | mouseDown id e =>
    show (handleMouseDown sqrt id s e).viewTransform.scale = _
    rw [handleMouseDown_viewTransform]
  | mouseMove e => exact handleMouseMove_scale sqrt s e
  | mouseUp =>
    show (handleMouseUp s).viewTransform.scale = _
    rw [handleMouseUp_viewTransform]
  | wheel e => exact absurd rfl (h e)
  | keyDown isSpace =>
    show (handleKeyDown s isSpace).viewTransform.scale = _
    rw [handleKeyDown_viewTransform]
  | keyUp isSpace =>
    show (handleKeyUp s isSpace).viewTransform.scale = _
    rw [handleKeyUp_viewTransform]
  | textChange value => rfl
  | textBlur =>
    show (handleTextBlur trim s).viewTransform.scale = _
    rw [handleTextBlur_viewTransform]
  | undo =>
    show (handleUndo s).viewTransform.scale = _
    rw [handleUndo_viewTransform]
  | redo =>
    show (handleRedo s).viewTransform.scale = _
    rw [handleRedo_viewTransform]
  | clearCanvas =>
    show (handleClearCanvas s).viewTransform.scale = _
    rw [handleClearCanvas_viewTransform]
  | snapshot data =>
    show (onSnapshot s data).viewTransform.scale = _
    rw [onSnapshot_viewTransform]
  | setTool tool => rfl
  | setShape shape => rfl
  | setColor color => rfl
  | lineWidthMinus => rfl
  | lineWidthPlus => rfl
  | resubscribe => rfl

/-- One event keeps the scale within [0.1, 20]. -/
theorem applyEvent_scale_range (sqrt : ℚ → ℚ) (trim : String → String) (s : State) (ev : Event)
    (h : 1 / 10 ≤ s.viewTransform.scale ∧ s.viewTransform.scale ≤ 20) :
    1 / 10 ≤ (applyEvent sqrt trim s ev).viewTransform.scale ∧
      (applyEvent sqrt trim s ev).viewTransform.scale ≤ 20 := by
  by_cases hw : ∃ e, ev = Event.wheel e
  · obtain ⟨e, rfl⟩ := hw
    exact handleWheel_scale_range s e
  · rw [applyEvent_scale_of_not_wheel sqrt trim s ev (fun e he => hw ⟨e, he⟩)]
    exact h

theorem runEvents_scale_range (sqrt : ℚ → ℚ) (trim : String → String) (events : List Event)
    (s : State) (h : 1 / 10 ≤ s.viewTransform.scale ∧ s.viewTransform.scale ≤ 20) :
    1 / 10 ≤ (runEvents sqrt trim s events).viewTransform.scale ∧
      (runEvents sqrt trim s events).viewTransform.scale ≤ 20 := by
  induction events generalizing s with
  | nil => exact h
  | cons ev evs ih => exact ih (applyEvent sqrt trim s ev) (applyEvent_scale_range sqrt trim s ev h)

/-- C16: from the view transform of scale 1 and offset (0,0), after any sequence
of events, zooms and pans among them, the scale lies in [0.1, 20]. -/
theorem scale_in_range (sqrt : ℚ → ℚ) (trim : String → String) (s0 : State)
    (h0 : s0.viewTransform = { scale := 1, offsetX := 0, offsetY := 0 }) (events : List Event) :
    1 / 10 ≤ (runEvents sqrt trim s0 events).viewTransform.scale ∧
      (runEvents sqrt trim s0 events).viewTransform.scale ≤ 20 := by
  apply runEvents_scale_range
  rw [h0]
  norm_num

/-- Witness of C16: two zoom-in steps, then a pan gesture. -/
theorem scale_in_range_witness :
    initialState.viewTransform = { scale := 1, offsetX := 0, offsetY := 0 } ∧
    (runEvents (fun v => v) (fun t => t) initialState
      [Event.wheel ⟨30, 40, -1, 0, 0⟩, Event.wheel ⟨30, 40, -1, 0, 0⟩, Event.keyDown true,
       Event.mouseDown "1u" ⟨0, 0, 0, 0⟩, Event.mouseMove ⟨9, 9, 0, 0⟩,
       Event.mouseUp]).viewTransform.scale ≤ 20 := by
  have h := scale_in_range (fun v => v) (fun t => t) initialState rfl
    [Event.wheel ⟨30, 40, -1, 0, 0⟩, Event.wheel ⟨30, 40, -1, 0, 0⟩, Event.keyDown true,
     Event.mouseDown "1u" ⟨0, 0, 0, 0⟩, Event.mouseMove ⟨9, 9, 0, 0⟩, Event.mouseUp]
  exact ⟨rfl, h.2⟩

/-! ## What is published -/

theorem getElem?_append_singleton_last (l : List Document) (d : Document) :
    (l ++ [d])[(l ++ [d]).length - 1]? = some d := by
  simp

/-- C17: after a commit, after an undo that takes effect and after a redo that
takes effect, the document handed to the session record is the entry of the
resulting history at the resulting index; after a commit it is the committed
document, and after undo or redo (on a history with index below its length)
it is the resulting document. -/
theorem published_is_current_entry :
    (∀ (s : State) (d : Document),
      (updateHistory s d).published =
        (updateHistory s d).history[(updateHistory s d).historyIndex]? ∧
      (updateHistory s d).published = some d) ∧
    (∀ s : State, 0 < s.historyIndex → s.historyIndex < s.history.length →
      (handleUndo s).published = (handleUndo s).history[(handleUndo s).historyIndex]? ∧
      (handleUndo s).published = some (handleUndo s).elements) ∧
    (∀ s : State, s.historyIndex < s.history.length - 1 →
      (handleRedo s).published = (handleRedo s).history[(handleRedo s).historyIndex]? ∧
      (handleRedo s).published = some (handleRedo s).elements) := by
  refine ⟨?_, ?_, ?_⟩
  · intro s d
    exact ⟨rfl, getElem?_append_singleton_last _ d⟩
  · intro s hpos hlt
    rw [handleUndo_pos s hpos]
    exact ⟨rfl, getD_getElem?_of_lt s.history _ (by omega)⟩
  · intro s hlt
    rw [handleRedo_lt s hlt]
    exact ⟨rfl, getD_getElem?_of_lt s.history _ (by omega)⟩

/-- Instance of C17 on the commit of one line from the freshly mounted component. -/
theorem published_is_current_entry_witness :
    (updateHistory initialState [.line "a" 0 0 1 1 "#00aaff" (some 5)]).published =
      some [.line "a" 0 0 1 1 "#00aaff" (some 5)] :=
  (published_is_current_entry.1 initialState [.line "a" 0 0 1 1 "#00aaff" (some 5)]).2

/-! ## Releasing the pointer after drawing a text box -/

/-- C18 against the code.  In `drawing` with the text tool, when the selected id
names a text element of the document, pointer-up opens the text box at the
bounds of that element and leaves the history and its index alone, as the
claim says; but the action it leaves is `none`, not `writing`: the
`setAction('none')` that ends the handler comes after `setAction('writing')`. -/
theorem handleMouseUp_text_action_none (s : State) (id : String) (x y width height : ℚ)
    (text color : String) (fontSize : ℚ)
    (ha : s.action = Action.drawing) (ht : s.tool = Tool.text)
    (hf : s.elements.find? (fun el => some el.id == s.selectedElements.head?) =
      some (.text id x y width height text color fontSize)) :
    (handleMouseUp s).action = Action.none ∧
    (handleMouseUp s).action ≠ Action.writing ∧
    (∃ b, getElementBounds (.text id x y width height text color fontSize) = some b ∧
      (handleMouseUp s).textInput =
        { visible := true, x := b.x, y := b.y, width := b.width, height := b.height,
          value := "" }) ∧
    (handleMouseUp s).history = s.history ∧
    (handleMouseUp s).historyIndex = s.historyIndex := by
  have hb := getElementBounds_text id x y width height text color fontSize
  have hu : handleMouseUp s =
      { s with
        action := Action.none
        startPoint := none
        textInput :=
          { visible := true, x := min x (x + width) - 5, y := min y (y + height) - 5
            width := |width| + 10, height := |height| + 10, value := "" } } := by
    simp [handleMouseUp, ha, ht, hf, hb]
  rw [hu]
  exact ⟨rfl, by simp, ⟨_, hb, rfl⟩, rfl, rfl⟩

/-- The failing input of C18: the state a press with the text tool at (3,4) leaves. -/
theorem handleMouseUp_text_action_none_witness :
    ({ tool := Tool.text, action := Action.drawing
       elements := [.text "1u" 3 4 0 0 "" "#00aaff" 24]
       selectedElements := ["1u"] } : State).action = Action.drawing ∧
    (handleMouseUp
      ({ tool := Tool.text, action := Action.drawing
         elements := [.text "1u" 3 4 0 0 "" "#00aaff" 24]
         selectedElements := ["1u"] } : State)).action = Action.none :=
  ⟨rfl,
   (handleMouseUp_text_action_none
      ({ tool := Tool.text, action := Action.drawing
         elements := [.text "1u" 3 4 0 0 "" "#00aaff" 24]
         selectedElements := ["1u"] } : State)
      "1u" 3 4 0 0 "" "#00aaff" 24 rfl rfl (by decide)).1⟩

/-! ## Text commit and eraser -/

theorem map_setText_of_ne (l : Document) (id value : String) (h : ∀ e ∈ l, e.id ≠ id) :
    l.map (fun el => if el.id = id then setElementText el value else el) = l := by
  induction l with
  | nil => rfl
  | cons a as ih =>
    rw [List.map_cons, if_neg (h a (List.mem_cons_self a as)),
      ih (fun e he => h e (List.mem_cons_of_mem a he))]

theorem filter_id_of_ne (l : Document) (id : String) (h : ∀ e ∈ l, e.id ≠ id) :
    l.filter (fun el => el.id != id) = l := by
  rw [List.filter_eq_self]
  intro a ha
  simpa using h a ha

/-- Removing by id from a document with distinct ids removes one element. -/
theorem filter_id_of_nodup (pre post : Document) (el : Element)
    (h : ((pre ++ el :: post).map Element.id).Nodup) :
    (pre ++ el :: post).filter (fun e => e.id != el.id) = pre ++ post := by
  rw [List.map_append, List.map_cons, List.nodup_append] at h
  obtain ⟨_, h2, h3⟩ := h
  rw [List.nodup_cons] at h2
  have hpre : ∀ e ∈ pre, e.id ≠ el.id := by
    intro e he heq
    exact h3 (List.mem_map_of_mem Element.id he) (by rw [heq]; exact List.mem_cons_self _ _)
  have hpost : ∀ e ∈ post, e.id ≠ el.id := by
    intro e he heq
    exact h2.1 (by rw [← heq]; exact List.mem_map_of_mem Element.id he)
  rw [List.filter_append, List.filter_cons, filter_id_of_ne pre el.id hpre,
    filter_id_of_ne post el.id hpost]
  simp

/-- C19: with exactly one id selected, naming exactly one element of the
document, a text element, the blur of the text box removes that element when
the entered string trims to the empty string and otherwise sets its text to
the entered string, all other elements keeping their place; the resulting
document is committed (it is the history entry at the new index, the last
one), the selection is emptied, the text box closed and the action `none`. -/
theorem handleTextBlur_commits (trim : String → String) (s : State) (id : String)
    (x y width height : ℚ) (text color : String) (fontSize : ℚ) (pre post : Document)
    (hsel : s.selectedElements = [id])
    (hdoc : s.elements = pre ++ [.text id x y width height text color fontSize] ++ post)
    (hpre : ∀ e ∈ pre, e.id ≠ id) (hpost : ∀ e ∈ post, e.id ≠ id) :
    (trim s.textInput.value = "" → (handleTextBlur trim s).elements = pre ++ post) ∧
    (trim s.textInput.value ≠ "" →
      (handleTextBlur trim s).elements =
        pre ++ [.text id x y width height s.textInput.value color fontSize] ++ post) ∧
    (handleTextBlur trim s).history =
      s.history.take (s.historyIndex + 1) ++ [(handleTextBlur trim s).elements] ∧
    (handleTextBlur trim s).historyIndex = (handleTextBlur trim s).history.length - 1 ∧
    (handleTextBlur trim s).history[(handleTextBlur trim s).historyIndex]? =
      some (handleTextBlur trim s).elements ∧
    (handleTextBlur trim s).selectedElements = [] ∧
    (handleTextBlur trim s).textInput.visible = false ∧
    (handleTextBlur trim s).action = Action.none := by
  have hmap : s.elements.map
      (fun el => if el.id = id then setElementText el s.textInput.value else el) =
      pre ++ [.text id x y width height s.textInput.value color fontSize] ++ post := by
    rw [hdoc, List.map_append, List.map_append, map_setText_of_ne pre id _ hpre,
      map_setText_of_ne post id _ hpost]
    simp [Element.id, setElementText]
  have hfil : (pre ++ [Element.text id x y width height s.textInput.value color fontSize] ++
      post).filter (fun el => el.id != id) = pre ++ post := by
    rw [List.filter_append, List.filter_append, filter_id_of_ne pre id hpre,
      filter_id_of_ne post id hpost]
    simp [Element.id]
  by_cases hblank : trim s.textInput.value = ""
  · have hu : handleTextBlur trim s =
        { updateHistory { s with elements := pre ++ post } (pre ++ post) with
          textInput := { visible := false, x := 0, y := 0, width := 0, height := 0, value := "" }
          action := Action.none
          selectedElements := [] } := by
      simp only [handleTextBlur, hsel, hblank, if_true, hmap, hfil]
    rw [hu]
    exact ⟨fun _ => rfl, fun hne => absurd hblank hne, rfl, rfl,
      getElem?_append_singleton_last _ _, rfl, rfl, rfl⟩
  · have hu : handleTextBlur trim s =
        { updateHistory
            { s with elements :=
                pre ++ [.text id x y width height s.textInput.value color fontSize] ++ post }
            (pre ++ [.text id x y width height s.textInput.value color fontSize] ++ post) with
          textInput := { visible := false, x := 0, y := 0, width := 0, height := 0, value := "" }
          action := Action.none
          selectedElements := [] } := by
      simp only [handleTextBlur, hsel, hblank, if_false, hmap]
    rw [hu]
    exact ⟨fun h => absurd h hblank, fun _ => rfl, rfl, rfl,
      getElem?_append_singleton_last _ _, rfl, rfl, rfl⟩

/-- Witness of C19: an empty entry removes the text box drawn on top of a line. -/
theorem handleTextBlur_commits_witness :
    ({ elements := [.line "a" 0 0 1 1 "#00aaff" (some 5), .text "1u" 3 4 50 20 "" "#00aaff" 24]
       selectedElements := ["1u"]
       textInput := { visible := true, x := -2, y := -1, width := 60, height := 30, value := "" } } :
      State).selectedElements = ["1u"] ∧
    (handleTextBlur (fun t => t)
      ({ elements := [.line "a" 0 0 1 1 "#00aaff" (some 5), .text "1u" 3 4 50 20 "" "#00aaff" 24]
         selectedElements := ["1u"]
         textInput := { visible := true, x := -2, y := -1, width := 60, height := 30, value := "" } } :
        State)).elements = [.line "a" 0 0 1 1 "#00aaff" (some 5)] ++ [] :=
  ⟨rfl,
   (handleTextBlur_commits (fun t => t)
      ({ elements := [.line "a" 0 0 1 1 "#00aaff" (some 5), .text "1u" 3 4 50 20 "" "#00aaff" 24]
         selectedElements := ["1u"]
         textInput := { visible := true, x := -2, y := -1, width := 60, height := 30, value := "" } } :
        State)
      "1u" 3 4 50 20 "" "#00aaff" 24 [.line "a" 0 0 1 1 "#00aaff" (some 5)] [] rfl rfl
      (by simp [Element.id]) (by simp)).1 rfl⟩

theorem getElementAtPosition_split (x y : ℚ) (elements : Document) (el : Element)
    (h : getElementAtPosition x y elements = some el) :
    ∃ pre post, elements = pre ++ el :: post := by
  rw [getElementAtPosition, getElementAtPositionFrom_eq_some] at h
  obtain ⟨i, _, hi, _⟩ := h
  exact List.append_of_mem (List.getElem?_mem hi)

theorem handleMouseDown_eraser_hit (sqrt : ℚ → ℚ) (newId : String) (s : State) (e : MouseInput)
    (el : Element) (hp : s.userPermission = Permission.draw) (hv : s.textInput.visible = false)
    (hsp : s.isSpacePressed = false) (ht : s.tool = Tool.strokeEraser)
    (hit : getElementAtPosition (getTransformedCoords s e).x (getTransformedCoords s e).y
      s.elements = some el) :
    handleMouseDown sqrt newId s e =
      updateHistory { s with elements := s.elements.filter (fun e2 => e2.id != el.id) }
        (s.elements.filter (fun e2 => e2.id != el.id)) := by
  simp [handleMouseDown, hp, hv, hsp, ht, hit]

theorem handleMouseDown_eraser_miss (sqrt : ℚ → ℚ) (newId : String) (s : State) (e : MouseInput)
    (hp : s.userPermission = Permission.draw) (hv : s.textInput.visible = false)
    (hsp : s.isSpacePressed = false) (ht : s.tool = Tool.strokeEraser)
    (hit : getElementAtPosition (getTransformedCoords s e).x (getTransformedCoords s e).y
      s.elements = none) :
    handleMouseDown sqrt newId s e = s := by
  simp [handleMouseDown, hp, hv, hsp, ht, hit]

/-- C20: on a document with distinct ids, pointer-down with the eraser tool
(draw permission, space not held, text box closed) removes exactly the element
the hit test answers, the others keeping their order, and commits the result
(it is the history entry at the new index, the last one); when the hit test
answers nothing the state is unchanged.  The action is left as it was, so an
idle state stays idle. -/
theorem handleMouseDown_eraser (sqrt : ℚ → ℚ) (newId : String) (s : State) (e : MouseInput)
    (hp : s.userPermission = Permission.draw) (hv : s.textInput.visible = false)
    (hsp : s.isSpacePressed = false) (ht : s.tool = Tool.strokeEraser)
    (hnd : (s.elements.map Element.id).Nodup) :
    (∀ el, getElementAtPosition (getTransformedCoords s e).x (getTransformedCoords s e).y
        s.elements = some el →
      ∃ pre post, s.elements = pre ++ el :: post ∧
        (handleMouseDown sqrt newId s e).elements = pre ++ post ∧
        (handleMouseDown sqrt newId s e).history =
          s.history.take (s.historyIndex + 1) ++ [pre ++ post] ∧
        (handleMouseDown sqrt newId s e).historyIndex =
          (handleMouseDown sqrt newId s e).history.length - 1 ∧
        (handleMouseDown sqrt newId s e).history[(handleMouseDown sqrt newId s e).historyIndex]? =
          some (pre ++ post) ∧
        (handleMouseDown sqrt newId s e).action = s.action) ∧
    (getElementAtPosition (getTransformedCoords s e).x (getTransformedCoords s e).y
        s.elements = none →
      handleMouseDown sqrt newId s e = s) := by
  refine ⟨?_, handleMouseDown_eraser_miss sqrt newId s e hp hv hsp ht⟩
  intro el hit
  obtain ⟨pre, post, hsplit⟩ := getElementAtPosition_split _ _ _ _ hit
  have hfil : s.elements.filter (fun e2 => e2.id != el.id) = pre ++ post := by
    rw [hsplit] at hnd ⊢
    exact filter_id_of_nodup pre post el hnd
  rw [handleMouseDown_eraser_hit sqrt newId s e el hp hv hsp ht hit, hfil]
  exact ⟨pre, post, hsplit, rfl, rfl, rfl, getElem?_append_singleton_last _ _, rfl⟩

/-- Witness of C20: the eraser on the two far-apart rectangles, pressed inside the first. -/
theorem handleMouseDown_eraser_witness :
    ({ elements := scenarioDocument, tool := Tool.strokeEraser } : State).userPermission =
      Permission.draw ∧
    ((({ elements := scenarioDocument, tool := Tool.strokeEraser } : State).elements).map
      Element.id).Nodup ∧
    ∃ pre post,
      scenarioDocument = pre ++ Element.rectangle "a" 0 0 10 10 "#00aaff" (some 5) :: post ∧
      (handleMouseDown (fun v => v) "1u"
        ({ elements := scenarioDocument, tool := Tool.strokeEraser } : State)
        ⟨5, 5, 0, 0⟩).elements = pre ++ post := by
  have hit : getElementAtPosition
      (getTransformedCoords ({ elements := scenarioDocument, tool := Tool.strokeEraser } : State)
        ⟨5, 5, 0, 0⟩).x
      (getTransformedCoords ({ elements := scenarioDocument, tool := Tool.strokeEraser } : State)
        ⟨5, 5, 0, 0⟩).y
      ({ elements := scenarioDocument, tool := Tool.strokeEraser } : State).elements =
      some (Element.rectangle "a" 0 0 10 10 "#00aaff" (some 5)) := by
    norm_num [getTransformedCoords, getElementAtPosition, getElementAtPositionFrom,
      scenarioDocument, getElementBounds, isPointInsideBounds, padding, Element.lineWidth]
  obtain ⟨pre, post, h1, h2, _⟩ :=
    (handleMouseDown_eraser (fun v => v) "1u"
      ({ elements := scenarioDocument, tool := Tool.strokeEraser } : State) ⟨5, 5, 0, 0⟩
      rfl rfl rfl rfl (by decide)).1 _ hit
  exact ⟨rfl, by decide, pre, post, h1, h2⟩

/-! ## The marquee -/

theorem doBoundsIntersect_iff (b1 b2 : Bounds) :
    doBoundsIntersect b1 b2 = true ↔ overlapsClosed b1 b2 := by
  simp only [doBoundsIntersect, overlapsClosed, Bool.not_eq_true', Bool.or_eq_false_iff,
    decide_eq_false_iff_not, not_lt, gt_iff_lt]
  tauto

theorem doBoundsIntersect_eq_decide (b1 b2 : Bounds) :
    doBoundsIntersect b1 b2 = decide (overlapsClosed b1 b2) := by
  rw [Bool.eq_iff_iff, doBoundsIntersect_iff, decide_eq_true_iff]

theorem handleMouseUp_selecting (s : State) (r : Bounds) (ha : s.action = Action.selecting)
    (hr : s.selectionRect = some r) :
    handleMouseUp s =
      { s with
        selectedElements := (s.elements.filter (fun element =>
          match getElementBounds element with
          | none => false
          | some bounds => doBoundsIntersect bounds (worldRectOf s.viewTransform r))).map
            (fun el => el.id)
        selectionRect := none
        action := Action.none
        startPoint := none } := by
  simp [handleMouseUp, ha, hr, worldRectOf]

theorem handleMouseMove_selecting (sqrt : ℚ → ℚ) (s : State) (e : MouseInput)
    (sp : StartPoint) (hp : s.userPermission = Permission.draw)
    (ha : s.action = Action.selecting) (hs : s.startPoint = some sp) :
    handleMouseMove sqrt s e =
      { s with selectionRect := some (selectionRectOf s.viewTransform
          (getTransformedCoords s e).x (getTransformedCoords s e).y sp) } := by
  simp [handleMouseMove, hp, ha, hs, selectionRectOf]

/-- C21: in `selecting` with a stored marquee, pointer-up makes the selection
the ids, in document order, of the elements whose bounds meet the marquee
taken to world coordinates, rectangles that only touch counting as meeting;
the document and the history are untouched, the marquee is cleared and the
action is `none`. -/
theorem handleMouseUp_selects_overlapping (s : State) (r : Bounds)
    (ha : s.action = Action.selecting) (hr : s.selectionRect = some r) :
    (handleMouseUp s).selectedElements =
      (s.elements.filter (fun el =>
        match getElementBounds el with
        | none => false
        | some b => decide (overlapsClosed b (worldRectOf s.viewTransform r)))).map Element.id ∧
    (∀ id, id ∈ (handleMouseUp s).selectedElements ↔
      ∃ el ∈ s.elements, el.id = id ∧
        ∃ b, getElementBounds el = some b ∧ overlapsClosed b (worldRectOf s.viewTransform r)) ∧
    (handleMouseUp s).elements = s.elements ∧
    (handleMouseUp s).history = s.history ∧
    (handleMouseUp s).historyIndex = s.historyIndex ∧
    (handleMouseUp s).selectionRect = none ∧
    (handleMouseUp s).action = Action.none := by
  have hfun : (fun element : Element =>
      match getElementBounds element with
      | none => false
      | some bounds => doBoundsIntersect bounds (worldRectOf s.viewTransform r)) =
      (fun el : Element =>
        match getElementBounds el with
        | none => false
        | some b => decide (overlapsClosed b (worldRectOf s.viewTransform r))) := by
    funext el
    cases getElementBounds el with
    | none => rfl
    | some b => exact doBoundsIntersect_eq_decide b _
  rw [handleMouseUp_selecting s r ha hr]
  refine ⟨?_, ?_, rfl, rfl, rfl, rfl, rfl⟩
  · show (List.filter _ s.elements).map (fun el => el.id) = _
    rw [hfun]
  · intro id
    show id ∈ (List.filter _ s.elements).map (fun el => el.id) ↔ _
    rw [hfun, List.mem_map]
    constructor
    · rintro ⟨el, hel, rfl⟩
      rw [List.mem_filter] at hel
      refine ⟨el, hel.1, rfl, ?_⟩
      cases hb : getElementBounds el with
      | none => rw [hb] at hel; exact absurd hel.2 (by simp)
      | some b =>
        rw [hb] at hel
        exact ⟨b, rfl, of_decide_eq_true hel.2⟩
    · rintro ⟨el, hel, rfl, b, hb, hov⟩
      refine ⟨el, ?_, rfl⟩
      rw [List.mem_filter]
      refine ⟨hel, ?_⟩
      rw [hb]
      exact decide_eq_true hov

/-- Witness of C21: a marquee whose right edge is the left edge of the bounds of
rectangle `a`, which is at x = -5: touching selects it. -/
theorem handleMouseUp_selects_overlapping_witness :
    ({ elements := scenarioDocument, tool := Tool.select, action := Action.selecting
       selectionRect := some { x := -20, y := -20, width := 15, height := 15 } } : State).action =
      Action.selecting ∧
    (handleMouseUp
      ({ elements := scenarioDocument, tool := Tool.select, action := Action.selecting
         selectionRect := some { x := -20, y := -20, width := 15, height := 15 } } :
        State)).selectedElements = ["a"] := by
  have h := (handleMouseUp_selects_overlapping
    ({ elements := scenarioDocument, tool := Tool.select, action := Action.selecting
       selectionRect := some { x := -20, y := -20, width := 15, height := 15 } } : State)
    { x := -20, y := -20, width := 15, height := 15 } rfl rfl).1
  refine ⟨rfl, ?_⟩
  rw [h]
  norm_num [scenarioDocument, getElementBounds, worldRectOf, overlapsClosed, Element.id]

/-- C26: for a view transform of positive scale, left as it is between the
pointer-move and the pointer-up, the world rectangle that pointer-up recovers
from the stored marquee is `x = min x sx`, `y = min y sy`, `width = |x - sx|`,
`height = |y - sy|`, with width and height not negative, where `(sx, sy)` is
the world anchor and `(x, y)` the world position of the pointer-move; and the
pointer-move of a selecting gesture stores that marquee without touching the
view transform. -/
theorem worldRectOf_selectionRectOf (v : ViewTransform) (x y : ℚ) (sp : StartPoint)
    (hv : 0 < v.scale) :
    worldRectOf v (selectionRectOf v x y sp) =
      { x := min x sp.x, y := min y sp.y, width := |x - sp.x|, height := |y - sp.y| } ∧
    0 ≤ (worldRectOf v (selectionRectOf v x y sp)).width ∧
    0 ≤ (worldRectOf v (selectionRectOf v x y sp)).height ∧
    (∀ (sqrt : ℚ → ℚ) (s : State) (e : MouseInput),
      s.viewTransform = v → s.userPermission = Permission.draw →
      s.action = Action.selecting → s.startPoint = some sp →
      (handleMouseMove sqrt s e).selectionRect =
        some (selectionRectOf v (getTransformedCoords s e).x (getTransformedCoords s e).y sp) ∧
      (handleMouseMove sqrt s e).viewTransform = v ∧
      (handleMouseMove sqrt s e).action = Action.selecting) := by
  have hne : v.scale ≠ 0 := ne_of_gt hv
  have heq : worldRectOf v (selectionRectOf v x y sp) =
      { x := min x sp.x, y := min y sp.y, width := |x - sp.x|, height := |y - sp.y| } := by
    simp only [worldRectOf, selectionRectOf, add_sub_cancel_right]
    rw [mul_div_assoc, mul_div_assoc, mul_div_assoc, mul_div_assoc, div_self hne]
    simp
  refine ⟨heq, ?_, ?_, ?_⟩
  · rw [heq]; exact abs_nonneg _
  · rw [heq]; exact abs_nonneg _
  · intro sqrt s e hsv hp ha hs
    rw [handleMouseMove_selecting sqrt s e sp hp ha hs]
    exact ⟨by rw [hsv], hsv, ha⟩

/-- Witness of C26 at scale 2, offset (5,7), anchor (1,2), pointer at (-3,6). -/
theorem worldRectOf_selectionRectOf_witness :
    0 < ({ scale := 2, offsetX := 5, offsetY := 7 } : ViewTransform).scale ∧
    worldRectOf { scale := 2, offsetX := 5, offsetY := 7 }
        (selectionRectOf { scale := 2, offsetX := 5, offsetY := 7 } (-3) 6 { x := 1, y := 2 }) =
      { x := min (-3) ({ x := 1, y := 2 } : StartPoint).x
        y := min 6 ({ x := 1, y := 2 } : StartPoint).y
        width := |(-3) - ({ x := 1, y := 2 } : StartPoint).x|
        height := |6 - ({ x := 1, y := 2 } : StartPoint).y| } :=
  ⟨by norm_num,
   (worldRectOf_selectionRectOf { scale := 2, offsetX := 5, offsetY := 7 } (-3) 6
      { x := 1, y := 2 } (by norm_num)).1⟩

/-! ## A press and release without a move -/

theorem handleMouseDown_create (sqrt : ℚ → ℚ) (id : String) (s : State) (e : MouseInput)
    (el : Element) (hp : s.userPermission = Permission.draw) (hv : s.textInput.visible = false)
    (hsp : s.isSpacePressed = false) (h1 : s.tool ≠ Tool.select)
    (h2 : s.tool ≠ Tool.strokeEraser)
    (hc : createElement sqrt s id (getTransformedCoords s e).x (getTransformedCoords s e).y
      (getTransformedCoords s e).x (getTransformedCoords s e).y = some el) :
    handleMouseDown sqrt id s e =
      { s with
        action := Action.drawing
        elements := s.elements ++ [el]
        selectedElements := [el.id] } := by
  simp [handleMouseDown, hp, hv, hsp, h1, h2, hc]

theorem handleMouseUp_commit (s : State) (ha : s.action = Action.drawing)
    (ht : s.tool ≠ Tool.text) :
    handleMouseUp s =
      { updateHistory s s.elements with action := Action.none, startPoint := none } := by
  simp [handleMouseUp, ha, ht]

/-- What a press followed at once by a release leaves, for a tool other than
select, eraser and text. -/
theorem handleMouseUp_handleMouseDown_create (sqrt : ℚ → ℚ) (id : String) (s : State)
    (e : MouseInput) (el : Element) (hp : s.userPermission = Permission.draw)
    (hv : s.textInput.visible = false) (hsp : s.isSpacePressed = false)
    (h1 : s.tool ≠ Tool.select) (h2 : s.tool ≠ Tool.strokeEraser) (h3 : s.tool ≠ Tool.text)
    (hc : createElement sqrt s id (getTransformedCoords s e).x (getTransformedCoords s e).y
      (getTransformedCoords s e).x (getTransformedCoords s e).y = some el) :
    (handleMouseUp (handleMouseDown sqrt id s e)).elements = s.elements ++ [el] ∧
    (handleMouseUp (handleMouseDown sqrt id s e)).history =
      s.history.take (s.historyIndex + 1) ++ [s.elements ++ [el]] ∧
    (handleMouseUp (handleMouseDown sqrt id s e)).historyIndex =
      (handleMouseUp (handleMouseDown sqrt id s e)).history.length - 1 ∧
    (handleMouseUp (handleMouseDown sqrt id s e)).history[
        (handleMouseUp (handleMouseDown sqrt id s e)).historyIndex]? =
      some (s.elements ++ [el]) ∧
    (handleMouseUp (handleMouseDown sqrt id s e)).action = Action.none := by
  rw [handleMouseDown_create sqrt id s e el hp hv hsp h1 h2 hc]
  have hu := handleMouseUp_commit
    { s with
      action := Action.drawing
      elements := s.elements ++ [el]
      selectedElements := [el.id] } rfl h3
  rw [hu]
  exact ⟨rfl, rfl, rfl, getElem?_append_singleton_last _ _, rfl⟩

/-- C22: with the draw permission, the text box closed and the space key up,
for the pen, the line tool and either shape, a pointer-down at world point `p`
followed at once by pointer-up leaves the old document with one element
appended: the path of the single point `p`, the line from `p` to `p`, the
rectangle at `p` of width and height 0, or the circle at `p` of radius 0
(`Math.sqrt(0)` being 0).  That document is the history entry at the new index,
the last one, and the action is `none`. -/
theorem press_release_commits_degenerate (sqrt : ℚ → ℚ) (hsqrt : sqrt 0 = 0) (id : String)
    (s : State) (e : MouseInput) (hp : s.userPermission = Permission.draw)
    (hv : s.textInput.visible = false) (hsp : s.isSpacePressed = false)
    (ht : s.tool = Tool.pen ∨ s.tool = Tool.line ∨ s.tool = Tool.shape) :
    ∃ el,
      (s.tool = Tool.pen →
        el = .path id [getTransformedCoords s e] s.color (some s.lineWidth)) ∧
      (s.tool = Tool.line →
        el = .line id (getTransformedCoords s e).x (getTransformedCoords s e).y
          (getTransformedCoords s e).x (getTransformedCoords s e).y s.color
          (some s.lineWidth)) ∧
      (s.tool = Tool.shape → s.shape = Shape.rectangle →
        el = .rectangle id (getTransformedCoords s e).x (getTransformedCoords s e).y 0 0
          s.color (some s.lineWidth)) ∧
      (s.tool = Tool.shape → s.shape = Shape.circle →
        el = .circle id (getTransformedCoords s e).x (getTransformedCoords s e).y 0
          s.color (some s.lineWidth)) ∧
      (handleMouseUp (handleMouseDown sqrt id s e)).elements = s.elements ++ [el] ∧
      (handleMouseUp (handleMouseDown sqrt id s e)).history =
        s.history.take (s.historyIndex + 1) ++ [s.elements ++ [el]] ∧
      (handleMouseUp (handleMouseDown sqrt id s e)).historyIndex =
        (handleMouseUp (handleMouseDown sqrt id s e)).history.length - 1 ∧
      (handleMouseUp (handleMouseDown sqrt id s e)).history[
          (handleMouseUp (handleMouseDown sqrt id s e)).historyIndex]? =
        some (s.elements ++ [el]) ∧
      (handleMouseUp (handleMouseDown sqrt id s e)).action = Action.none := by
  rcases ht with ht | ht | ht
  · have hc : createElement sqrt s id (getTransformedCoords s e).x (getTransformedCoords s e).y
        (getTransformedCoords s e).x (getTransformedCoords s e).y =
        some (.path id [getTransformedCoords s e] s.color (some s.lineWidth)) := by
      simp [createElement, ht]
    obtain ⟨a1, a2, a3, a4, a5⟩ := handleMouseUp_handleMouseDown_create sqrt id s e _ hp hv hsp
      (by rw [ht]; decide) (by rw [ht]; decide) (by rw [ht]; decide) hc
    refine ⟨_, fun _ => rfl, ?_, ?_, ?_, a1, a2, a3, a4, a5⟩
    · intro h; rw [ht] at h; cases h
    · intro h; rw [ht] at h; cases h
    · intro h; rw [ht] at h; cases h
  · have hc : createElement sqrt s id (getTransformedCoords s e).x (getTransformedCoords s e).y
        (getTransformedCoords s e).x (getTransformedCoords s e).y =
        some (.line id (getTransformedCoords s e).x (getTransformedCoords s e).y
          (getTransformedCoords s e).x (getTransformedCoords s e).y s.color
          (some s.lineWidth)) := by
      simp [createElement, ht]
    obtain ⟨a1, a2, a3, a4, a5⟩ := handleMouseUp_handleMouseDown_create sqrt id s e _ hp hv hsp
      (by rw [ht]; decide) (by rw [ht]; decide) (by rw [ht]; decide) hc
    refine ⟨_, ?_, fun _ => rfl, ?_, ?_, a1, a2, a3, a4, a5⟩
    · intro h; rw [ht] at h; cases h
    · intro h; rw [ht] at h; cases h
    · intro h; rw [ht] at h; cases h
  · cases hsh : s.shape with
    | rectangle =>
      have hc : createElement sqrt s id (getTransformedCoords s e).x
          (getTransformedCoords s e).y (getTransformedCoords s e).x
          (getTransformedCoords s e).y =
          some (.rectangle id (getTransformedCoords s e).x (getTransformedCoords s e).y 0 0
            s.color (some s.lineWidth)) := by
        simp [createElement, ht, hsh]
      obtain ⟨a1, a2, a3, a4, a5⟩ := handleMouseUp_handleMouseDown_create sqrt id s e _ hp hv
        hsp (by rw [ht]; decide) (by rw [ht]; decide) (by rw [ht]; decide) hc
      refine ⟨_, ?_, ?_, fun _ _ => rfl, ?_, a1, a2, a3, a4, a5⟩
      · intro h; rw [ht] at h; cases h
      · intro h; rw [ht] at h; cases h
      · intro _ h; cases h
    | circle =>
      have hc : createElement sqrt s id (getTransformedCoords s e).x
          (getTransformedCoords s e).y (getTransformedCoords s e).x
          (getTransformedCoords s e).y =
          some (.circle id (getTransformedCoords s e).x (getTransformedCoords s e).y 0
            s.color (some s.lineWidth)) := by
        simp [createElement, ht, hsh, hsqrt]
      obtain ⟨a1, a2, a3, a4, a5⟩ := handleMouseUp_handleMouseDown_create sqrt id s e _ hp hv
        hsp (by rw [ht]; decide) (by rw [ht]; decide) (by rw [ht]; decide) hc
      refine ⟨_, ?_, ?_, ?_, fun _ _ => rfl, a1, a2, a3, a4, a5⟩
      · intro h; rw [ht] at h; cases h
      · intro h; rw [ht] at h; cases h
      · intro _ h; cases h

/-- Witness of C22: a click with the circle shape on the freshly mounted component. -/
theorem press_release_commits_degenerate_witness :
    (fun v : ℚ => v) 0 = 0 ∧
    ({ tool := Tool.shape, shape := Shape.circle } : State).userPermission = Permission.draw ∧
    ∃ el,
      el = Element.circle "1u"
        (getTransformedCoords ({ tool := Tool.shape, shape := Shape.circle } : State)
          ⟨3, 4, 0, 0⟩).x
        (getTransformedCoords ({ tool := Tool.shape, shape := Shape.circle } : State)
          ⟨3, 4, 0, 0⟩).y 0
        ({ tool := Tool.shape, shape := Shape.circle } : State).color
        (some ({ tool := Tool.shape, shape := Shape.circle } : State).lineWidth) ∧
      (handleMouseUp (handleMouseDown (fun v => v) "1u"
        ({ tool := Tool.shape, shape := Shape.circle } : State) ⟨3, 4, 0, 0⟩)).elements =
        ({ tool := Tool.shape, shape := Shape.circle } : State).elements ++ [el] := by
  obtain ⟨el, _, _, _, h4, h5, _⟩ := press_release_commits_degenerate (fun v => v) rfl "1u"
    ({ tool := Tool.shape, shape := Shape.circle } : State) ⟨3, 4, 0, 0⟩ rfl rfl rfl
    (Or.inr (Or.inr rfl))
  exact ⟨rfl, rfl, el, h4 rfl rfl, h5⟩

/-! ## Distinct ids -/

theorem updateDrawnElement_id (sqrt : ℚ → ℚ) (el : Element) (x y : ℚ) :
    (updateDrawnElement sqrt el x y).id = el.id := by
  cases el <;> rfl

theorem moveElement_id (o : Element) (id : String) (dx dy : ℚ) :
    (moveElement o id dx dy).id = id := by
  cases o <;> rfl

theorem setElementText_id (el : Element) (value : String) :
    (setElementText el value).id = el.id := by
  cases el <;> rfl

theorem createElement_id (sqrt : ℚ → ℚ) (s : State) (id : String) (x y x2 y2 : ℚ)
    (el : Element) (h : createElement sqrt s id x y x2 y2 = some el) : el.id = id := by
  unfold createElement at h
  split at h
  · cases h; rfl
  · cases h; rfl
  · split at h
    · cases h; rfl
    · cases h; rfl
  · cases h; rfl
  · cases h

theorem moveSelected_ids (sel : List String) (orig : List Element) (dx dy : ℚ)
    (l l2 : List Element) (h : moveSelected sel orig dx dy l = some l2) :
    l2.map Element.id = l.map Element.id := by
  induction l generalizing l2 with
  | nil =>
    simp only [moveSelected] at h
    cases h
    rfl
  | cons a as ih =>
    simp only [moveSelected] at h
    split at h
    · rename_i m ms hm hms
      cases h
      have hid : m.id = a.id := by
        split at hm
        · cases ho : orig.find? (fun oel => oel.id == a.id) with
          | none => rw [ho] at hm; cases hm
          | some o =>
            rw [ho] at hm
            cases hm
            exact moveElement_id o a.id dx dy
        · cases hm
          rfl
      rw [List.map_cons, List.map_cons, hid, ih ms hms]
    · cases h

theorem map_id_set (l : List Element) (i : Nat) (el new : Element) (h : l[i]? = some el)
    (hid : new.id = el.id) : (l.set i new).map Element.id = l.map Element.id := by
  induction l generalizing i with
  | nil => rfl
  | cons a as ih =>
    cases i with
    | zero =>
      simp only [List.getElem?_cons_zero, Option.some.injEq] at h
      subst h
      simp [hid]
    | succ j =>
      simp only [List.getElem?_cons_succ] at h
      simp [ih j h]

theorem handleMouseMove_ids (sqrt : ℚ → ℚ) (s : State) (e : MouseInput) :
    (handleMouseMove sqrt s e).elements.map Element.id = s.elements.map Element.id := by
  unfold handleMouseMove
  repeat' (first | split | dsimp only)
  all_goals first
    | rfl
    | (rename_i hset; exact map_id_set _ _ _ _ hset (updateDrawnElement_id _ _ _ _))
    | (rename_i hmv; exact moveSelected_ids _ _ _ _ _ _ hmv)

theorem handleMouseUp_elements (s : State) : (handleMouseUp s).elements = s.elements := by
  unfold handleMouseUp
  repeat' (first | split | dsimp only)
  all_goals rfl

theorem nodup_ids_filter (l : Document) (p : Element → Bool)
    (h : (l.map Element.id).Nodup) : ((l.filter p).map Element.id).Nodup :=
  List.Nodup.sublist (List.Sublist.map _ (List.filter_sublist l)) h

theorem map_id_setText (l : Document) (id value : String) :
    (l.map (fun el => if el.id = id then setElementText el value else el)).map Element.id =
      l.map Element.id := by
  induction l with
  | nil => rfl
  | cons a as ih =>
    rw [List.map_cons, List.map_cons, List.map_cons, ih]
    by_cases h : a.id = id
    · rw [if_pos h, setElementText_id]
    · rw [if_neg h]

theorem handleMouseDown_nodup (sqrt : ℚ → ℚ) (newId : String) (s : State) (e : MouseInput)
    (h : (s.elements.map Element.id).Nodup) (hnew : newId ∉ s.elements.map Element.id) :
    ((handleMouseDown sqrt newId s e).elements.map Element.id).Nodup := by
  unfold handleMouseDown
  repeat' (first | split | dsimp only)
  all_goals first
    | exact h
    | exact nodup_ids_filter _ _ h
    | (rename_i hc
       rw [List.map_append, List.map_singleton, createElement_id _ _ _ _ _ _ _ _ hc]
       exact List.Nodup.append h (List.nodup_singleton _)
         (List.disjoint_singleton.mpr hnew))

theorem handleTextBlur_nodup (trim : String → String) (s : State)
    (h : (s.elements.map Element.id).Nodup) :
    ((handleTextBlur trim s).elements.map Element.id).Nodup := by
  unfold handleTextBlur
  repeat' (first | split | dsimp only)
  all_goals first
    | exact h
    | (apply nodup_ids_filter; rw [map_id_setText]; exact h)
    | (show ((List.map _ s.elements).map Element.id).Nodup
       rw [map_id_setText]; exact h)

/-- C23: if the ids of the elements of the document are pairwise distinct, they
still are after a pointer-down (given that the id generated at the event is not
an id of the document), after a pointer-move, after a pointer-up and after a
text commit. -/
theorem ids_stay_distinct (sqrt : ℚ → ℚ) (trim : String → String) (s : State)
    (h : (s.elements.map Element.id).Nodup) :
    (∀ (newId : String) (e : MouseInput), newId ∉ s.elements.map Element.id →
      ((handleMouseDown sqrt newId s e).elements.map Element.id).Nodup) ∧
    (∀ e : MouseInput, ((handleMouseMove sqrt s e).elements.map Element.id).Nodup) ∧
    ((handleMouseUp s).elements.map Element.id).Nodup ∧
    ((handleTextBlur trim s).elements.map Element.id).Nodup := by
  refine ⟨fun newId e hnew => handleMouseDown_nodup sqrt newId s e h hnew, ?_, ?_,
    handleTextBlur_nodup trim s h⟩
  · intro e
    rw [handleMouseMove_ids]
    exact h
  · rw [handleMouseUp_elements]
    exact h

/-- Witness of C23: a press with the pen on the two rectangles `a` and `b`, the
generated id being `1u`. -/
theorem ids_stay_distinct_witness :
    ((({ elements := scenarioDocument } : State).elements).map Element.id).Nodup ∧
    "1u" ∉ (({ elements := scenarioDocument } : State).elements).map Element.id ∧
    ((handleMouseDown (fun v => v) "1u" ({ elements := scenarioDocument } : State)
      ⟨1, 1, 0, 0⟩).elements.map Element.id).Nodup :=
  ⟨by decide, by decide,
   (ids_stay_distinct (fun v => v) (fun t => t) ({ elements := scenarioDocument } : State)
      (by decide)).1 "1u" ⟨1, 1, 0, 0⟩ (by decide)⟩

/-! ## Panning -/

theorem handleMouseDown_panning (sqrt : ℚ → ℚ) (id : String) (s : State) (e : MouseInput)
    (hp : s.userPermission = Permission.draw) (hv : s.textInput.visible = false)
    (hsp : s.isSpacePressed = true) :
    handleMouseDown sqrt id s e =
      { s with
        action := Action.panning
        startPoint := some { x := e.clientX, y := e.clientY } } := by
  simp [handleMouseDown, hp, hv, hsp]

theorem handleMouseMove_panning (sqrt : ℚ → ℚ) (s : State) (e : MouseInput) (sp : StartPoint)
    (hp : s.userPermission = Permission.draw) (ha : s.action = Action.panning)
    (hs : s.startPoint = some sp) :
    handleMouseMove sqrt s e =
      { s with
        viewTransform :=
          { s.viewTransform with
            offsetX := s.viewTransform.offsetX + (e.clientX - sp.x)
            offsetY := s.viewTransform.offsetY + (e.clientY - sp.y) }
        startPoint := some { x := e.clientX, y := e.clientY } } := by
  simp [handleMouseMove, hp, ha, hs]

/-- Along the pointer-moves of a pan gesture the offset minus the anchor stays
the same, and so does everything but the offset and the anchor. -/
theorem foldl_handleMouseMove_panning (sqrt : ℚ → ℚ) (moves : List MouseInput) (t : State)
    (sp : StartPoint) (hp : t.userPermission = Permission.draw)
    (ha : t.action = Action.panning) (hs : t.startPoint = some sp) :
    ∃ sp2, (moves.foldl (handleMouseMove sqrt) t).startPoint = some sp2 ∧
      (moves.foldl (handleMouseMove sqrt) t).userPermission = Permission.draw ∧
      (moves.foldl (handleMouseMove sqrt) t).action = Action.panning ∧
      (moves.foldl (handleMouseMove sqrt) t).viewTransform.offsetX - sp2.x =
        t.viewTransform.offsetX - sp.x ∧
      (moves.foldl (handleMouseMove sqrt) t).viewTransform.offsetY - sp2.y =
        t.viewTransform.offsetY - sp.y ∧
      (moves.foldl (handleMouseMove sqrt) t).viewTransform.scale = t.viewTransform.scale ∧
      (moves.foldl (handleMouseMove sqrt) t).elements = t.elements ∧
      (moves.foldl (handleMouseMove sqrt) t).selectedElements = t.selectedElements ∧
      (moves.foldl (handleMouseMove sqrt) t).history = t.history ∧
      (moves.foldl (handleMouseMove sqrt) t).historyIndex = t.historyIndex := by
  induction moves generalizing t sp with
  | nil => exact ⟨sp, hs, hp, ha, rfl, rfl, rfl, rfl, rfl, rfl, rfl⟩
  | cons m ms ih =>
    have hm := handleMouseMove_panning sqrt t m sp hp ha hs
    obtain ⟨sp2, b1, b2, b3, b4, b5, b6, b7, b8, b9, b10⟩ :=
      ih (handleMouseMove sqrt t m) { x := m.clientX, y := m.clientY }
        (by rw [hm]; exact hp) (by rw [hm]; exact ha) (by rw [hm])
    rw [List.foldl_cons]
    refine ⟨sp2, b1, b2, b3, ?_, ?_, ?_, ?_, ?_, ?_, ?_⟩
    · rw [b4, hm]
      show t.viewTransform.offsetX + (m.clientX - sp.x) - m.clientX = _
      ring
    · rw [b5, hm]
      show t.viewTransform.offsetY + (m.clientY - sp.y) - m.clientY = _
      ring
    · rw [b6, hm]
    · rw [b7, hm]
    · rw [b8, hm]
    · rw [b9, hm]
    · rw [b10, hm]

/-- C24: in `panning` (with the draw permission, which every pointer-move
needs) a pointer-move at screen point `q` adds `q - anchor` to the offset, makes
`q` the anchor and leaves the scale, the document, the selection and the
history alone; and a pan gesture pressed at `q0` whose last move is at `qn`
ends with the offset it started from plus `qn - q0`, whatever the moves in
between and whatever the scale. -/
theorem pan_adds_screen_delta (sqrt : ℚ → ℚ) :
    (∀ (s : State) (e : MouseInput) (sp : StartPoint),
      s.userPermission = Permission.draw → s.action = Action.panning →
      s.startPoint = some sp →
      (handleMouseMove sqrt s e).viewTransform.offsetX =
        s.viewTransform.offsetX + (e.clientX - sp.x) ∧
      (handleMouseMove sqrt s e).viewTransform.offsetY =
        s.viewTransform.offsetY + (e.clientY - sp.y) ∧
      (handleMouseMove sqrt s e).startPoint = some { x := e.clientX, y := e.clientY } ∧
      (handleMouseMove sqrt s e).viewTransform.scale = s.viewTransform.scale ∧
      (handleMouseMove sqrt s e).elements = s.elements ∧
      (handleMouseMove sqrt s e).selectedElements = s.selectedElements ∧
      (handleMouseMove sqrt s e).history = s.history ∧
      (handleMouseMove sqrt s e).historyIndex = s.historyIndex) ∧
    (∀ (id : String) (s : State) (e0 en : MouseInput) (moves : List MouseInput),
      s.userPermission = Permission.draw → s.textInput.visible = false →
      s.isSpacePressed = true →
      ((moves ++ [en]).foldl (handleMouseMove sqrt)
          (handleMouseDown sqrt id s e0)).viewTransform.offsetX =
        s.viewTransform.offsetX + (en.clientX - e0.clientX) ∧
      ((moves ++ [en]).foldl (handleMouseMove sqrt)
          (handleMouseDown sqrt id s e0)).viewTransform.offsetY =
        s.viewTransform.offsetY + (en.clientY - e0.clientY) ∧
      ((moves ++ [en]).foldl (handleMouseMove sqrt)
          (handleMouseDown sqrt id s e0)).viewTransform.scale = s.viewTransform.scale) := by
  constructor
  · intro s e sp hp ha hs
    rw [handleMouseMove_panning sqrt s e sp hp ha hs]
    exact ⟨rfl, rfl, rfl, rfl, rfl, rfl, rfl, rfl⟩
  · intro id s e0 en moves hp hv hsp
    have hd := handleMouseDown_panning sqrt id s e0 hp hv hsp
    obtain ⟨sp2, b1, b2, b3, b4, b5, b6, _⟩ :=
      foldl_handleMouseMove_panning sqrt moves (handleMouseDown sqrt id s e0)
        { x := e0.clientX, y := e0.clientY } (by rw [hd]; exact hp) (by rw [hd]) (by rw [hd])
    rw [List.foldl_append, List.foldl_cons, List.foldl_nil,
      handleMouseMove_panning sqrt _ en sp2 b2 b3 b1]
    have c4 : (List.foldl (handleMouseMove sqrt) (handleMouseDown sqrt id s e0)
        moves).viewTransform.offsetX - sp2.x = s.viewTransform.offsetX - e0.clientX := by
      rw [b4, hd]
    have c5 : (List.foldl (handleMouseMove sqrt) (handleMouseDown sqrt id s e0)
        moves).viewTransform.offsetY - sp2.y = s.viewTransform.offsetY - e0.clientY := by
      rw [b5, hd]
    have c6 : (List.foldl (handleMouseMove sqrt) (handleMouseDown sqrt id s e0)
        moves).viewTransform.scale = s.viewTransform.scale := by
      rw [b6, hd]
    refine ⟨?_, ?_, c6⟩
    · show _ + (en.clientX - sp2.x) = _
      linarith
    · show _ + (en.clientY - sp2.y) = _
      linarith

/-- Instance of C24: a pan pressed at (10,10), through (500,-3), released at
(25,40), at scale 2 and offset (5,7). -/
theorem pan_adds_screen_delta_witness :
    ((([⟨500, -3, 0, 0⟩] : List MouseInput) ++ [(⟨25, 40, 0, 0⟩ : MouseInput)]).foldl
        (handleMouseMove (fun v => v))
        (handleMouseDown (fun v => v) "1u"
          ({ isSpacePressed := true
             viewTransform := { scale := 2, offsetX := 5, offsetY := 7 } } : State)
          ⟨10, 10, 0, 0⟩)).viewTransform.offsetX =
      ({ isSpacePressed := true
         viewTransform := { scale := 2, offsetX := 5, offsetY := 7 } } :
        State).viewTransform.offsetX +
        ((⟨25, 40, 0, 0⟩ : MouseInput).clientX - (⟨10, 10, 0, 0⟩ : MouseInput).clientX) :=
  ((pan_adds_screen_delta (fun v => v)).2 "1u"
    ({ isSpacePressed := true
       viewTransform := { scale := 2, offsetX := 5, offsetY := 7 } } : State)
    (⟨10, 10, 0, 0⟩ : MouseInput) (⟨25, 40, 0, 0⟩ : MouseInput)
    [(⟨500, -3, 0, 0⟩ : MouseInput)] rfl rfl rfl).1

/-! ## Drawing -/

theorem findIdx?_first_match (p : Element → Bool) (pre post : List Element) (el : Element)
    (start : Nat) (hpre : ∀ e ∈ pre, p e = false) (hel : p el = true) :
    List.findIdx? p (pre ++ el :: post) start = some (start + pre.length) := by
  induction pre generalizing start with
  | nil => simp [List.findIdx?, hel]
  | cons a as ih =>
    rw [List.cons_append, List.findIdx?, hpre a (List.mem_cons_self a as)]
    simp only [Bool.false_eq_true, if_false]
    rw [ih (start + 1) (fun e he => hpre e (List.mem_cons_of_mem a he)), List.length_cons]
    congr 1
    omega

theorem handleMouseMove_drawing (sqrt : ℚ → ℚ) (s : State) (e : MouseInput) (id : String)
    (pre post : Document) (el : Element) (hp : s.userPermission = Permission.draw)
    (ha : s.action = Action.drawing) (hsel : s.selectedElements = [id])
    (hdoc : s.elements = pre ++ el :: post) (hid : el.id = id)
    (hpre : ∀ e2 ∈ pre, e2.id ≠ id) :
    handleMouseMove sqrt s e =
      { s with
        elements :=
          (pre ++ updateDrawnElement sqrt el (getTransformedCoords s e).x
            (getTransformedCoords s e).y :: post) } := by
  have hfind : s.elements.findIdx? (fun e2 => e2.id == id) = some pre.length := by
    rw [hdoc, findIdx?_first_match _ pre post el 0 (fun e2 he2 => by simpa using hpre e2 he2)
      (by simpa using hid)]
    simp
  have hget : s.elements[pre.length]? = some el := by
    rw [hdoc, List.getElem?_append_right (le_refl _)]
    simp
  have hset : s.elements.set pre.length (updateDrawnElement sqrt el (getTransformedCoords s e).x
      (getTransformedCoords s e).y) =
      pre ++ updateDrawnElement sqrt el (getTransformedCoords s e).x
        (getTransformedCoords s e).y :: post := by
    rw [hdoc]
    simp
  simp only [handleMouseMove, hp, ha, hsel]
  simp [hfind, hget, hset]

/-- C25: in `drawing` (with the draw permission, which every pointer-move
needs), with one selected id whose first bearer in the document is `el`, a
pointer-move at world `(x, y)` replaces `el` in place and nothing else: a path
gains the point `(x, y)` after its earlier points; a line gets `x2 = x`,
`y2 = y`; a rectangle or a text box gets `width = x - el.x`,
`height = y - el.y`; a circle, `Math.sqrt` answering the non-negative root of
the sum of squares, gets a radius `r ≥ 0` with
`r ^ 2 = (x - el.x) ^ 2 + (y - el.y) ^ 2`; anchors and centres stay, and so do
the length of the document and the history. -/
theorem handleMouseMove_drawing_updates (sqrt : ℚ → ℚ) (s : State) (e : MouseInput)
    (id : String) (pre post : Document) (el : Element)
    (hp : s.userPermission = Permission.draw) (ha : s.action = Action.drawing)
    (hsel : s.selectedElements = [id]) (hdoc : s.elements = pre ++ el :: post)
    (hid : el.id = id) (hpre : ∀ e2 ∈ pre, e2.id ≠ id) :
    (∀ path color lw, el = .path id path color lw →
      (handleMouseMove sqrt s e).elements =
        pre ++ .path id (path ++ [getTransformedCoords s e]) color lw :: post) ∧
    (∀ x y x2 y2 color lw, el = .line id x y x2 y2 color lw →
      (handleMouseMove sqrt s e).elements =
        pre ++ .line id x y (getTransformedCoords s e).x (getTransformedCoords s e).y
          color lw :: post) ∧
    (∀ x y width height color lw, el = .rectangle id x y width height color lw →
      (handleMouseMove sqrt s e).elements =
        pre ++ .rectangle id x y ((getTransformedCoords s e).x - x)
          ((getTransformedCoords s e).y - y) color lw :: post) ∧
    (∀ x y width height text color fs, el = .text id x y width height text color fs →
      (handleMouseMove sqrt s e).elements =
        pre ++ .text id x y ((getTransformedCoords s e).x - x)
          ((getTransformedCoords s e).y - y) text color fs :: post) ∧
    (∀ x y radius color lw, el = .circle id x y radius color lw →
      (0 ≤ sqrt (((getTransformedCoords s e).x - x) ^ 2 + ((getTransformedCoords s e).y - y) ^ 2) ∧
        sqrt (((getTransformedCoords s e).x - x) ^ 2 + ((getTransformedCoords s e).y - y) ^ 2) ^ 2 =
          ((getTransformedCoords s e).x - x) ^ 2 + ((getTransformedCoords s e).y - y) ^ 2) →
      ∃ r, 0 ≤ r ∧
        r ^ 2 = ((getTransformedCoords s e).x - x) ^ 2 + ((getTransformedCoords s e).y - y) ^ 2 ∧
        (handleMouseMove sqrt s e).elements = pre ++ .circle id x y r color lw :: post) ∧
    (handleMouseMove sqrt s e).elements.length = s.elements.length ∧
    (handleMouseMove sqrt s e).history = s.history ∧
    (handleMouseMove sqrt s e).historyIndex = s.historyIndex := by
  rw [handleMouseMove_drawing sqrt s e id pre post el hp ha hsel hdoc hid hpre]
  refine ⟨?_, ?_, ?_, ?_, ?_, ?_, rfl, rfl⟩
  · intro path color lw h
    rw [h]
    rfl
  · intro x y x2 y2 color lw h
    rw [h]
    rfl
  · intro x y width height color lw h
    rw [h]
    rfl
  · intro x y width height text color fs h
    rw [h]
    rfl
  · intro x y radius color lw h hs
    rw [h]
    exact ⟨_, hs.1, hs.2, rfl⟩
  · show (pre ++ _ :: post).length = s.elements.length
    rw [hdoc]
    simp

/-- Witness of C25: a circle centred at (0,0) while the pointer is at (3,4),
with a stand-in for `Math.sqrt` that knows the root of 25. -/
theorem handleMouseMove_drawing_updates_witness :
    ({ action := Action.drawing, selectedElements := ["1u"]
       elements := [] ++ Element.circle "1u" 0 0 0 "#00aaff" (some 5) :: [] } :
      State).userPermission = Permission.draw ∧
    ∃ r : ℚ, 0 ≤ r ∧
      r ^ 2 =
        ((getTransformedCoords
          ({ action := Action.drawing, selectedElements := ["1u"]
             elements := [] ++ Element.circle "1u" 0 0 0 "#00aaff" (some 5) :: [] } : State)
          ⟨3, 4, 0, 0⟩).x - 0) ^ 2 +
        ((getTransformedCoords
          ({ action := Action.drawing, selectedElements := ["1u"]
             elements := [] ++ Element.circle "1u" 0 0 0 "#00aaff" (some 5) :: [] } : State)
          ⟨3, 4, 0, 0⟩).y - 0) ^ 2 ∧
      (handleMouseMove (fun v => if v = 25 then 5 else 0)
        ({ action := Action.drawing, selectedElements := ["1u"]
           elements := [] ++ Element.circle "1u" 0 0 0 "#00aaff" (some 5) :: [] } : State)
        ⟨3, 4, 0, 0⟩).elements = [] ++ Element.circle "1u" 0 0 r "#00aaff" (some 5) :: [] :=
  ⟨rfl,
   (handleMouseMove_drawing_updates (fun v => if v = 25 then 5 else 0)
      ({ action := Action.drawing, selectedElements := ["1u"]
         elements := [] ++ Element.circle "1u" 0 0 0 "#00aaff" (some 5) :: [] } : State)
      ⟨3, 4, 0, 0⟩ "1u" [] [] (Element.circle "1u" 0 0 0 "#00aaff" (some 5))
      rfl rfl rfl rfl rfl (by simp)).2.2.2.2.1 0 0 0 "#00aaff" (some 5) rfl
      (by norm_num [getTransformedCoords])⟩

end Whiteboard
